import Mathlib

/-!
Tick server of YARP-BT-modules

Shallow embedding of `src/src/yarp_tick_server.cpp`, and of the action bodies
of `src/scenarios/grasp_bottle_module.cpp` and
`src/scenarios/compute_inv_pose_module.cpp`.

* The member variables of `TickServer` are the structure `TickServer`.
* `status_` is an `int32_t`; it is only copied and compared, never computed
  with, so it is an `Int` here.
* The enumerators `BT_RUNNING`, ... are declared in a header that is not part
  of the sources; they are taken as parameters (`StatusCodes`), known only to
  be pairwise different, as the labels of one `switch` have to be.
* `tick()` and `halt()` are virtual and supplied by the skill; they are
  parameters too (`Env`).  `tick()` either returns a value or raises.
* `std::thread(&TickServer::executeTick, this)` starts a thread. The threads
  are kept in `World.threads`, each with a program counter; a thread advances
  one statement of `executeTick` at a time (`thread_step`).  What the threads
  do while `request_tick` sleeps is given by a schedule: one list of thread
  indices per `sleep_for`.
* `executeTick` is only ever run as the entry function of such a thread, and
  it has no handler: an exception that leaves `tick()` leaves the thread, and
  `std::terminate` ends the process. A `World` is a state of the living
  process; where a step ends the process there is no next state (`none`).
* A read or a write of a member is one step, and so is the whole call of
  `tick()`; the mutexes are not modelled.
* Callers that are inside `request_tick` at the same time advance one step at
  a time as well (`tick_step`, `moves`), and share the handle
  `execute_tick_thread_`: assigning a new thread to it while it is joinable
  ends the process. Run alone, such a caller is `request_tick`
  (`tick_alone_eq`); calls served one after the other always find the handle
  not joinable, which is why `request_tick` itself does not carry it.
-/

namespace TickServerModel

/-- Values of the enumerators used by the tick server. The labels of the
`switch` in `request_tick` are pairwise different. -/
structure StatusCodes where
  BT_RUNNING : Int
  BT_SUCCESS : Int
  BT_FAILURE : Int
  BT_IDLE : Int
  BT_HALTED : Int
  BT_ERROR : Int
  distinct : [BT_RUNNING, BT_SUCCESS, BT_FAILURE, BT_IDLE, BT_HALTED, BT_ERROR].Nodup

/-- Member variables of the class `TickServer`. -/
structure TickServer where
  module_name_ : String
  status_ : Int
  is_halt_requested_ : Bool
  deriving DecidableEq, Repr

/-- Outcome of one call of the action body `tick()`: it returns a value, or an
exception leaves it. -/
inductive BodyResult where
  | returned (r : Int)
  | fault
  deriving DecidableEq, Repr

/-- The enumerators together with the two virtual functions of the skill.
Both run as member functions, so they may read and write the members. -/
structure Env extends StatusCodes where
  tick : TickServer → BodyResult × TickServer
  halt : TickServer → TickServer

/-- Program counter of one thread running `executeTick`:
`start` before `set_status(BT_RUNNING)`, `body` before the call of `tick()`,
`publish r` before `set_status(return_status)` with `return_status = r`,
`finished` after the last statement. -/
inductive Pc where
  | start
  | body
  | publish (r : Int)
  | finished
  deriving DecidableEq, Repr

/-- The server object together with what surrounds it: the threads started by
`request_tick` so far (in the order they were started) and counters of the
calls of `halt()`, of `tick()` and of `yError`. -/
structure World where
  self : TickServer
  threads : List Pc
  halt_calls : Nat
  tick_calls : Nat
  error_logs : Nat
  deriving DecidableEq, Repr

/-- `int32_t TickServer::get_status()`. -/
def get_status (s : TickServer) : Int :=
  s.status_

/-- `void TickServer::set_status(int32_t new_status)`. -/
def set_status (new_status : Int) (s : TickServer) : TickServer :=
  { s with status_ := new_status }

/-- `bool TickServer::is_halt_requested()`. -/
def is_halt_requested (s : TickServer) : Bool :=
  s.is_halt_requested_

/-- `void TickServer::set_halt_requested(bool is_halt_requested)`. -/
def set_halt_requested (is_halt_requested : Bool) (s : TickServer) : TickServer :=
  { s with is_halt_requested_ := is_halt_requested }

/-- `TickServer::TickServer()`. The members hold `raw` before the body of the
constructor runs. -/
def TickServer.ctor (c : StatusCodes) (raw : TickServer) : TickServer :=
  let s0 := { raw with module_name_ := "" }
  let s1 := set_halt_requested false s0
  set_status c.BT_IDLE s1

/-- `TickServer::TickServer(std::string name)`. -/
def TickServer.ctor_name (c : StatusCodes) (name : String) (raw : TickServer) : TickServer :=
  let s0 := { raw with module_name_ := name }
  let s1 := set_halt_requested false s0
  set_status c.BT_IDLE s1

/-- A server right after construction: no thread has been started and nothing
has been called. -/
def World.fresh (s : TickServer) : World :=
  { self := s, threads := [], halt_calls := 0, tick_calls := 0, error_logs := 0 }

/-- The call `tick()` made by `executeTick`, counted. -/
def call_tick (e : Env) (w : World) : BodyResult × World :=
  let out := e.tick w.self
  (out.1, { w with self := out.2, tick_calls := w.tick_calls + 1 })

/-- The call `halt()` made by `request_halt`, counted. -/
def call_halt (e : Env) (w : World) : World :=
  { w with self := e.halt w.self, halt_calls := w.halt_calls + 1 }

/-- `void TickServer::executeTick()`, run without interruption.
`Except.ok` is the normal return; `Except.error` carries the state in which
the exception raised by `tick()` leaves the function: there is no handler, so
the last `set_status` is skipped. -/
def executeTick (e : Env) (w : World) : Except World World :=
  let w1 := { w with self := set_status e.BT_RUNNING w.self }
  match call_tick e w1 with
  | (BodyResult.returned return_status, w2) =>
      Except.ok { w2 with self := set_status return_status w2.self }
  | (BodyResult.fault, w2) => Except.error w2

/-- One statement of `executeTick` run by thread `i`. A thread that is
`finished`, or an index that names no thread, changes nothing. When the body
raises, the exception leaves `executeTick`, which is the entry function of
the thread, and `std::terminate` ends the process: the result is `none`. -/
def thread_step (e : Env) (i : Nat) (w : World) : Option World :=
  match w.threads.get? i with
  | some Pc.start =>
      some { w with self := set_status e.BT_RUNNING w.self, threads := w.threads.set i Pc.body }
  | some Pc.body =>
      match call_tick e w with
      | (BodyResult.returned return_status, w2) =>
          some { w2 with threads := w2.threads.set i (Pc.publish return_status) }
      | (BodyResult.fault, _) => none
  | some (Pc.publish return_status) =>
      some { w with self := set_status return_status w.self,
                    threads := w.threads.set i Pc.finished }
  | _ => some w

/-- What happens during one `std::this_thread::sleep_for`: the threads named
in `d` each run one statement, in that order; `none` when one of them ends
the process. -/
def sleep_for (e : Env) : List Nat → World → Option World
  | [], w => some w
  | i :: d, w =>
      match thread_step e i w with
      | none => none
      | some w1 => sleep_for e d w1

/-- `execute_tick_thread_ = std::thread(&TickServer::executeTick, this)`. -/
def spawn (w : World) : World :=
  { w with threads := w.threads ++ [Pc.start] }

/-- The `do ... while (return_status == BT_IDLE)` loop of `request_tick`.
Each round sleeps and then reads the status. `sched` gives, for each round,
what the threads do during the sleep; `none` means that the call does not
return: the loop is still running when the schedule ends, or a thread has
ended the process. -/
def poll (e : Env) : List (List Nat) → World → Option (Int × World)
  | [], _ => none
  | d :: rest, w =>
      match sleep_for e d w with
      | none => none
      | some w1 =>
          let return_status := get_status w1.self
          if return_status = e.BT_IDLE then poll e rest w1 else some (return_status, w1)

/-- `int32_t TickServer::request_tick()`. The statements after `return` are
unreachable. `execute_tick_thread_.detach()` changes nothing that is
modelled. -/
def request_tick (e : Env) (sched : List (List Nat)) (w : World) : Option (Int × World) :=
  let return_status := get_status w.self
  if return_status = e.BT_ERROR then
    some (return_status, { w with error_logs := w.error_logs + 1 })
  else if return_status = e.BT_RUNNING then
    some (return_status, w)
  else if return_status = e.BT_SUCCESS ∨ return_status = e.BT_FAILURE then
    some (return_status, { w with self := set_status e.BT_IDLE w.self })
  else if return_status = e.BT_IDLE ∨ return_status = e.BT_HALTED then
    poll e sched (spawn w)
  else
    some (return_status, w)

/-- `void TickServer::request_halt()`. -/
def request_halt (e : Env) (w : World) : World :=
  let w1 := { w with self := set_halt_requested true w.self }
  let return_status := get_status w1.self
  if return_status = e.BT_RUNNING then call_halt e w1 else w1

/-- `int32_t TickServer::request_status()`. -/
def request_status (w : World) : Int × World :=
  (get_status w.self, w)

/-- The three remote calls of the server. A tick carries the schedule of its
polling loop. -/
inductive Request where
  | tick (sched : List (List Nat))
  | halt
  | status
  deriving DecidableEq, Repr

/-- Serve one remote call; the reply is the returned status, if the call
returns one. -/
def serve (e : Env) (r : Request) (w : World) : Option (Option Int × World) :=
  match r with
  | Request.tick sched => (request_tick e sched w).map (fun p => (some p.1, p.2))
  | Request.halt => some (none, request_halt e w)
  | Request.status => some (some (request_status w).1, (request_status w).2)

/-- Serve a sequence of remote calls one after the other, collecting the
replies. -/
def serveAll (e : Env) : List Request → World → Option (List (Option Int) × World)
  | [], w => some ([], w)
  | r :: rs, w =>
      match serve e r w with
      | none => none
      | some (a, w1) =>
          match serveAll e rs w1 with
          | none => none
          | some (as, w2) => some (a :: as, w2)

/-- Enumerator values used for the concrete runs. -/
def codes0 : StatusCodes :=
  { BT_RUNNING := 0, BT_SUCCESS := 1, BT_FAILURE := 2, BT_IDLE := 3, BT_HALTED := 4,
    BT_ERROR := 5, distinct := by decide }

/-- A skill whose body returns `r` and whose halt hook does nothing. -/
def envReturning (r : Int) : Env :=
  { toStatusCodes := codes0, tick := fun s => (BodyResult.returned r, s), halt := fun s => s }

/-- A skill whose body raises and whose halt hook does nothing. -/
def envFaulting : Env :=
  { toStatusCodes := codes0, tick := fun s => (BodyResult.fault, s), halt := fun s => s }

/-- A server with the given status, no halt requested, and no thread. -/
def worldWith (status : Int) : World :=
  World.fresh { module_name_ := "skill", status_ := status, is_halt_requested_ := false }

/-- A server whose action is running: Status RUNNING and one thread inside the
body. -/
def runningWorld : World :=
  { worldWith codes0.BT_RUNNING with threads := [Pc.body] }

/-- A server in Status ERROR whose only thread has finished. -/
def errorWorld : World :=
  { worldWith codes0.BT_ERROR with threads := [Pc.finished] }

/-- A server in Status HALTED with two finished threads. -/
def haltedWorld : World :=
  { worldWith codes0.BT_HALTED with threads := [Pc.finished, Pc.finished] }

/-- A thread that has left `executeTick` runs no further statement. -/
def Pc.dead : Pc → Bool
  | Pc.finished => true
  | _ => false

/-- One step of a run: a remote call, or the threads running the statements
named in `d` while no call is being served. -/
inductive Step where
  | call (r : Request)
  | threads (d : List Nat)
  deriving DecidableEq, Repr

/-- Run a sequence of steps, collecting the replies of the calls; `none` when
a call does not return or a thread ends the process. -/
def run (e : Env) : List Step → World → Option (List (Option Int) × World)
  | [], w => some ([], w)
  | Step.call r :: rest, w =>
      match serve e r w with
      | none => none
      | some (a, w1) =>
          match run e rest w1 with
          | none => none
          | some (as, w2) => some (a :: as, w2)
  | Step.threads d :: rest, w =>
      match sleep_for e d w with
      | none => none
      | some w1 => run e rest w1

/-- The scenario of the specification up to the second status query: a tick
on a fresh server whose body returns SUCCESS, a status query while the body
runs, the body finishing, and a status query after that. -/
def scenarioStart : List Step :=
  [Step.call (Request.tick [[0]]), Step.call Request.status, Step.threads [0, 0],
    Step.call Request.status]

/-- A fresh server built by the constructor with a name. -/
def freshWorld : World :=
  World.fresh (TickServer.ctor_name codes0 "skill"
    { module_name_ := "", status_ := 77, is_halt_requested_ := true })

/-- The server at the end of `scenarioStart`: the first action has completed
with SUCCESS. -/
def scenarioWorld : World :=
  { self := { module_name_ := "skill", status_ := codes0.BT_SUCCESS, is_halt_requested_ := false },
    threads := [Pc.finished], halt_calls := 0, tick_calls := 1, error_logs := 0 }

/-- Program counter of one caller inside `request_tick`:
`entry` before the first `get_status()`, `switch r` before the `switch` with
`return_status = r`, `polling` inside the loop (asleep, before the next
`get_status()`), `leaving r` after the loop and before
`execute_tick_thread_.detach()`, `returned r` after `return return_status`. -/
inductive TickPc where
  | entry
  | switch (return_status : Int)
  | polling
  | leaving (return_status : Int)
  | returned (return_status : Int)
  deriving DecidableEq, Repr

/-- The living process as the callers of `request_tick` share it: the world
and the member `execute_tick_thread_`, which is `some i` while it is joinable
(it then stands for thread `i`) and `none` when it is not (before the first
assignment and after `detach()`). -/
structure Process where
  world : World
  execute_tick_thread_ : Option Nat
  deriving DecidableEq, Repr

/-- One step of a caller of `request_tick`: the read of the status, the
`switch` up to the start of the thread, one reading of the status in the loop,
or the `detach()`. Between two steps of one caller other callers and the
threads may run. `none` is the end of the process: assigning the new thread to
`execute_tick_thread_` while it is joinable calls `std::terminate`, and
`detach()` on a handle that is not joinable throws. -/
def tick_step (e : Env) (pc : TickPc) (p : Process) : Option (TickPc × Process) :=
  match pc with
  | TickPc.entry => some (TickPc.switch (get_status p.world.self), p)
  | TickPc.switch return_status =>
      if return_status = e.BT_ERROR then
        some (TickPc.returned return_status,
          { p with world := { p.world with error_logs := p.world.error_logs + 1 } })
      else if return_status = e.BT_RUNNING then
        some (TickPc.returned return_status, p)
      else if return_status = e.BT_SUCCESS ∨ return_status = e.BT_FAILURE then
        some (TickPc.returned return_status,
          { p with world := { p.world with self := set_status e.BT_IDLE p.world.self } })
      else if return_status = e.BT_IDLE ∨ return_status = e.BT_HALTED then
        match p.execute_tick_thread_ with
        | some _ => none
        | none =>
            some (TickPc.polling,
              { world := spawn p.world, execute_tick_thread_ := some p.world.threads.length })
      else
        some (TickPc.returned return_status, p)
  | TickPc.polling =>
      let return_status := get_status p.world.self
      if return_status = e.BT_IDLE then some (TickPc.polling, p)
      else some (TickPc.leaving return_status, p)
  | TickPc.leaving return_status =>
      match p.execute_tick_thread_ with
      | some _ => some (TickPc.returned return_status, { p with execute_tick_thread_ := none })
      | none => none
  | TickPc.returned return_status => some (TickPc.returned return_status, p)

/-- The loop of a caller that runs with no other caller: after each sleep it
reads the status once, and when that is not IDLE it detaches and returns. -/
def tick_poll_alone (e : Env) : List (List Nat) → Process → Option (Int × World)
  | [], _ => none
  | d :: rest, p =>
      match sleep_for e d p.world with
      | none => none
      | some w1 =>
          match tick_step e TickPc.polling { p with world := w1 } with
          | some (TickPc.leaving return_status, p1) =>
              match tick_step e (TickPc.leaving return_status) p1 with
              | some (_, p2) => some (return_status, p2.world)
              | none => none
          | some (_, p1) => tick_poll_alone e rest p1
          | none => none

/-- One caller running `request_tick` step by step with no other caller, on a
process whose handle is not joinable. -/
def tick_alone (e : Env) (sched : List (List Nat)) (w : World) : Option (Int × World) :=
  match tick_step e TickPc.entry { world := w, execute_tick_thread_ := none } with
  | none => none
  | some (pc1, p1) =>
      match tick_step e pc1 p1 with
      | some (TickPc.returned return_status, p2) => some (return_status, p2.world)
      | some (_, p2) => tick_poll_alone e sched p2
      | none => none

/-- The process with the callers that are inside `request_tick`. -/
structure Concurrent where
  process : Process
  callers : List TickPc
  deriving DecidableEq, Repr

/-- One move of an execution: caller `j` or thread `i` runs its next step. -/
inductive Move where
  | caller (j : Nat)
  | thread (i : Nat)
  deriving DecidableEq, Repr

/-- The effect of one move; `none` when it ends the process. -/
def move (e : Env) (m : Move) (c : Concurrent) : Option Concurrent :=
  match m with
  | Move.thread i =>
      match thread_step e i c.process.world with
      | none => none
      | some w1 => some { c with process := { c.process with world := w1 } }
  | Move.caller j =>
      match c.callers.get? j with
      | some pc =>
          match tick_step e pc c.process with
          | none => none
          | some (pc1, p1) => some { process := p1, callers := c.callers.set j pc1 }
      | none => some c

/-- An execution: the moves one after the other; `none` when one of them ends
the process. -/
def moves (e : Env) : List Move → Concurrent → Option Concurrent
  | [], c => some c
  | m :: ms, c =>
      match move e m c with
      | none => none
      | some c1 => moves e ms c1

/-- Number of threads that are inside `executeTick`. -/
def alive (w : World) : Nat :=
  (w.threads.filter (fun pc => !pc.dead)).length

/-- Two callers that have both just entered `request_tick` on a fresh server
whose handle is not joinable. -/
def twoCallers : Concurrent :=
  { process := { world := freshWorld, execute_tick_thread_ := none },
    callers := [TickPc.entry, TickPc.entry] }

/-- The hooks of the skill leave a halt request in place: neither the body
nor the halt hook stores `false` into HaltRequested once it is `true`. -/
def keeps_halt_request (e : Env) : Prop :=
  (∀ s, is_halt_requested s = true → is_halt_requested (e.tick s).2 = true) ∧
    ∀ s, is_halt_requested s = true → is_halt_requested (e.halt s) = true

/-- The skill `e` with another body. -/
def with_body (e : Env) (body : TickServer → BodyResult × TickServer) : Env :=
  { e with tick := body }

/-- A server on which a halt was requested while its action ran and was
reported HALTED by the body. -/
def haltRequestedWorld : World :=
  { self := { module_name_ := "skill", status_ := codes0.BT_HALTED, is_halt_requested_ := true },
    threads := [Pc.finished], halt_calls := 1, tick_calls := 1, error_logs := 0 }

/-- A body that looks at HaltRequested first: HALTED when it is set, SUCCESS
otherwise. -/
def envHaltAware : Env :=
  { toStatusCodes := codes0,
    tick := fun s =>
      if is_halt_requested s then (BodyResult.returned codes0.BT_HALTED, s)
      else (BodyResult.returned codes0.BT_SUCCESS, s),
    halt := fun s => s }

/-! ### The skills of `src/scenarios`

`GraspBottle::execute_tick` and `ComputeInvPose::execute_tick` talk to other
processes through ports. What the ports and the halt flag answer during one
call is the input of the model; what is written to the ports is not
modelled, so the name of the object and the position read from the blackboard
do not appear. -/

/-- A `yarp::os::Value`, as far as the skills look at it: the result of
`asList()` (`none` for a null pointer, otherwise the `size()` of the list
pointed to), of `asVocab()` and of `asInt()`. -/
structure Value where
  asList : Option Nat
  asVocab : Int
  asInt : Int
  deriving DecidableEq, Repr

/-- A `yarp::os::Bottle`: its elements. -/
abbrev Bottle := List Value

/-- The value that `Bottle::get` gives for an index that is out of range. -/
def Value.null : Value :=
  { asList := none, asVocab := 0, asInt := 0 }

/-- `Bottle::get(int index)`. -/
def Bottle.get (b : Bottle) (index : Nat) : Value :=
  b.getD index Value.null

/-- What the collaborators and the halt flag answer during one call of
`GraspBottle::execute_tick`, in the order in which they are asked.
The grasp module does answer: the `std::future` is ready after finitely many
rounds of the wait loop. `waits` holds the `getHalted()` of each round in
which it was not ready yet, `halted_ready` the `getHalted()` of the round in
which it is ready. -/
structure GraspIO where
  blackboard_count1 : Int
  pose_reply : Bottle
  halted1 : Bool
  start_halt_count : Int
  grasp_count : Int
  waits : List Bool
  halted_ready : Bool
  grasp_reply : Bottle
  blackboard_count2 : Int
  set_reply : Bottle
  deriving DecidableEq, Repr

/-- The `do ... while(status != std::future_status::ready)` loop of
`GraspBottle::execute_tick`: `true` when a round finds `getHalted()` true
(the loop is then left by `return BT_HALTED`), `false` when the loop ends
with the reply. -/
def wait_for_grasp : List Bool → Bool → Bool
  | [], halted_ready => halted_ready
  | halted :: rest, halted_ready => if halted then true else wait_for_grasp rest halted_ready

/-- `ReturnStatus GraspBottle::execute_tick(const std::string& objectName)`.
The result is the returned value together with the members of the server at
the return; `none` when the call dereferences the null pointer that
`asList()` gave. `ack` is `Vocab::encode("ack")`. -/
def GraspBottle.execute_tick (c : StatusCodes) (ack : Int) (io : GraspIO) (s : TickServer) :
    Option (Int × TickServer) :=
  let s := set_status c.BT_RUNNING s
  if io.blackboard_count1 < 1 then
    some (c.BT_FAILURE, set_status c.BT_FAILURE s)
  else if io.pose_reply.length ≠ 1 then
    some (c.BT_FAILURE, set_status c.BT_FAILURE s)
  else
    match (Bottle.get io.pose_reply 0).asList with
    | none => none
    | some vector_size =>
        if vector_size < 3 then
          some (c.BT_FAILURE, set_status c.BT_FAILURE s)
        else if io.halted1 then
          some (c.BT_HALTED, set_status c.BT_HALTED s)
        else if io.start_halt_count < 1 then
          some (c.BT_FAILURE, set_status c.BT_FAILURE s)
        else if io.grasp_count < 1 then
          some (c.BT_FAILURE, set_status c.BT_FAILURE s)
        else if wait_for_grasp io.waits io.halted_ready then
          some (c.BT_HALTED, set_status c.BT_HALTED s)
        else if io.grasp_reply.length ≠ 1 then
          some (c.BT_FAILURE, set_status c.BT_FAILURE s)
        else if (Bottle.get io.grasp_reply 0).asVocab ≠ ack then
          some (c.BT_FAILURE, set_status c.BT_FAILURE s)
        else if io.blackboard_count2 < 1 then
          some (c.BT_FAILURE, set_status c.BT_FAILURE s)
        else if io.set_reply.length ≠ 1 then
          some (c.BT_FAILURE, set_status c.BT_FAILURE s)
        else if (Bottle.get io.set_reply 0).asInt ≠ 1 then
          some (c.BT_FAILURE, set_status c.BT_FAILURE s)
        else
          some (c.BT_SUCCESS, set_status c.BT_SUCCESS s)

/-- What `blackboard_port.write` returns at each of the four writes of
`ComputeInvPose::execute_tick`. -/
structure InvPoseIO where
  ret_InvPose : Bool
  ret_InvPoseComputed : Bool
  ret_InvPoseValid : Bool
  ret_RobotAtInvPose : Bool
  deriving DecidableEq, Repr

/-- `ReturnStatus ComputeInvPose::execute_tick(const std::string& params)`.
The result is the returned value, the members at the return, and the events
sent to the monitor. The results of the second and the third write are only
logged, and `simulated` only chooses the text that is written. -/
def ComputeInvPose.execute_tick (c : StatusCodes) (io : InvPoseIO) (s : TickServer) :
    Int × TickServer × List String :=
  let s := set_status c.BT_RUNNING s
  let ret := io.ret_InvPose
  let monitor := if ret then ["e_req"] else []
  let ret := io.ret_RobotAtInvPose
  let monitor := if ret then monitor ++ ["e_from_env"] else monitor
  (c.BT_SUCCESS, set_status c.BT_SUCCESS s, monitor)

/-- A reply of one element that is a list of `n` elements. -/
def listReply (n : Nat) : Bottle :=
  [{ asList := some n, asVocab := 0, asInt := 0 }]

/-- A reply of one element that is the integer (or vocab) `v` and not a
list. -/
def intReply (v : Int) : Bottle :=
  [{ asList := none, asVocab := v, asInt := v }]

/-- The value of `Vocab::encode("ack")` used in the concrete runs. -/
def ack0 : Int := 7037793

/-- Answers with which the grasp goes through: every port connected, a pose
of three numbers, no halt, `ack` from the grasp module after two rounds of
waiting, `1` from the blackboard. -/
def graspOk : GraspIO :=
  { blackboard_count1 := 1, pose_reply := listReply 3, halted1 := false, start_halt_count := 1,
    grasp_count := 1, waits := [false, false], halted_ready := false,
    grasp_reply := intReply ack0, blackboard_count2 := 1, set_reply := intReply 1 }

/-- The members of a skill server before a tick. -/
def idleServer : TickServer :=
  { module_name_ := "GraspBottle", status_ := codes0.BT_IDLE, is_halt_requested_ := false }

/-! ## Facts about the enumerators and the elementary operations -/

theorem StatusCodes.pairwise_ne (c : StatusCodes) :
    c.BT_RUNNING ≠ c.BT_SUCCESS ∧ c.BT_RUNNING ≠ c.BT_FAILURE ∧ c.BT_RUNNING ≠ c.BT_IDLE ∧
    c.BT_RUNNING ≠ c.BT_HALTED ∧ c.BT_RUNNING ≠ c.BT_ERROR ∧ c.BT_SUCCESS ≠ c.BT_FAILURE ∧
    c.BT_SUCCESS ≠ c.BT_IDLE ∧ c.BT_SUCCESS ≠ c.BT_HALTED ∧ c.BT_SUCCESS ≠ c.BT_ERROR ∧
    c.BT_FAILURE ≠ c.BT_IDLE ∧ c.BT_FAILURE ≠ c.BT_HALTED ∧ c.BT_FAILURE ≠ c.BT_ERROR ∧
    c.BT_IDLE ≠ c.BT_HALTED ∧ c.BT_IDLE ≠ c.BT_ERROR ∧ c.BT_HALTED ≠ c.BT_ERROR := by
  have h := c.distinct
  simp only [List.nodup_cons, List.mem_cons, List.mem_singleton, not_or, List.not_mem_nil,
    not_false_eq_true, List.nodup_nil, and_true] at h
  obtain ⟨⟨h1, h2, h3, h4, h5⟩, ⟨h6, h7, h8, h9⟩, ⟨h10, h11, h12⟩, ⟨h13, h14⟩, h15⟩ := h
  exact ⟨h1, h2, h3, h4, h5, h6, h7, h8, h9, h10, h11, h12, h13, h14, h15⟩

/-- A tick that reads `BT_RUNNING` returns it and changes nothing. -/
theorem request_tick_running (e : Env) (sched : List (List Nat)) (w : World)
    (h : get_status w.self = e.BT_RUNNING) :
    request_tick e sched w = some (e.BT_RUNNING, w) := by
  have hne := e.toStatusCodes.pairwise_ne
  have h1 : e.BT_RUNNING ≠ e.BT_ERROR := hne.2.2.2.2.1
  simp [request_tick, h, h1]

/-- A tick that reads `BT_ERROR` returns it and only logs. -/
theorem request_tick_error (e : Env) (sched : List (List Nat)) (w : World)
    (h : get_status w.self = e.BT_ERROR) :
    request_tick e sched w = some (e.BT_ERROR, { w with error_logs := w.error_logs + 1 }) := by
  simp [request_tick, h]

/-- A tick that reads `BT_SUCCESS` or `BT_FAILURE` returns what it read and
stores `BT_IDLE`. -/
theorem request_tick_terminal (e : Env) (sched : List (List Nat)) (w : World)
    (h : get_status w.self = e.BT_SUCCESS ∨ get_status w.self = e.BT_FAILURE) :
    request_tick e sched w =
      some (get_status w.self, { w with self := set_status e.BT_IDLE w.self }) := by
  have hne := e.toStatusCodes.pairwise_ne
  obtain ⟨h1, h2, -, -, -, -, -, -, h9, -, -, h12, -, -, -⟩ := hne
  rcases h with h | h
  · simp [request_tick, h, h9, h1.symm]
  · simp [request_tick, h, h12, h2.symm]

/-- A tick that reads `BT_IDLE` or `BT_HALTED` starts a thread and polls. -/
theorem request_tick_spawns (e : Env) (sched : List (List Nat)) (w : World)
    (h : get_status w.self = e.BT_IDLE ∨ get_status w.self = e.BT_HALTED) :
    request_tick e sched w = poll e sched (spawn w) := by
  have hne := e.toStatusCodes.pairwise_ne
  obtain ⟨-, -, h3, h4, -, -, h7, h8, -, h10, h11, -, -, h14, h15⟩ := hne
  rcases h with h | h
  · simp [request_tick, h, h14, h3.symm, h7.symm, h10.symm]
  · simp [request_tick, h, h15, h4.symm, h8.symm, h11.symm]

/-! ## Ticks while the action is running -/

/-- C1: when Status is RUNNING, any finite sequence of `request_tick` calls
(whatever their schedules, no thread step in between) is served completely,
every call replies RUNNING, and the world afterwards is the world before: Status
is still RUNNING and the list of threads is the same, so no thread was
started. -/
theorem C1_ticks_while_running (e : Env) (scheds : List (List (List Nat))) (w : World)
    (h : get_status w.self = e.BT_RUNNING) :
    serveAll e (scheds.map Request.tick) w =
        some (List.replicate scheds.length (some e.BT_RUNNING), w) ∧
      ∀ replies w1, serveAll e (scheds.map Request.tick) w = some (replies, w1) →
        (∀ a ∈ replies, a = some e.BT_RUNNING) ∧ get_status w1.self = e.BT_RUNNING ∧
          w1.threads = w.threads := by
  have key : serveAll e (scheds.map Request.tick) w =
      some (List.replicate scheds.length (some e.BT_RUNNING), w) := by
    induction scheds with
    | nil => rfl
    | cons sched rest ih =>
        simp [serveAll, serve, request_tick_running e sched w h, ih, List.replicate_succ]
  refine ⟨key, ?_⟩
  intro replies w1 hrun
  rw [key] at hrun
  simp only [Option.some.injEq, Prod.mk.injEq] at hrun
  obtain ⟨hr, hw⟩ := hrun
  subst hr hw
  exact ⟨fun a ha => (List.mem_replicate.mp ha).2, h, rfl⟩

theorem C1_ticks_while_running_witness :
    get_status runningWorld.self = (envReturning 1).BT_RUNNING ∧
      serveAll (envReturning 1) ([[[0]], [], [[0, 0], [0]]].map Request.tick) runningWorld =
        some (List.replicate 3 (some (envReturning 1).BT_RUNNING), runningWorld) :=
  ⟨rfl, (C1_ticks_while_running (envReturning 1) [[[0]], [], [[0, 0], [0]]] runningWorld rfl).1⟩

/-! ## Ticks after a terminal status -/

/-- C2 (as in the code): when Status is SUCCESS or FAILURE, `request_tick`
returns, whatever the schedule; it stores IDLE, starts no thread, calls neither
hook, and the value it returns is the status it read (SUCCESS, respectively
FAILURE), not IDLE. -/
theorem C2_tick_after_terminal (e : Env) (sched : List (List Nat)) (w : World)
    (h : get_status w.self = e.BT_SUCCESS ∨ get_status w.self = e.BT_FAILURE) :
    ∃ w1, request_tick e sched w = some (get_status w.self, w1) ∧
      get_status w1.self = e.BT_IDLE ∧ w1.threads = w.threads ∧
      w1.tick_calls = w.tick_calls ∧ w1.halt_calls = w.halt_calls ∧
      is_halt_requested w1.self = is_halt_requested w.self ∧
      get_status w.self ≠ e.BT_IDLE := by
  refine ⟨_, request_tick_terminal e sched w h, rfl, rfl, rfl, rfl, rfl, ?_⟩
  have hne := e.toStatusCodes.pairwise_ne
  rcases h with h | h
  · rw [h]; exact hne.2.2.2.2.2.2.1
  · rw [h]; exact hne.2.2.2.2.2.2.2.2.2.1

theorem C2_tick_after_terminal_witness :
    ∃ w1, request_tick (envReturning 1) [] (worldWith codes0.BT_FAILURE) =
        some (get_status (worldWith codes0.BT_FAILURE).self, w1) ∧
      get_status w1.self = (envReturning 1).BT_IDLE ∧
      w1.threads = (worldWith codes0.BT_FAILURE).threads ∧
      w1.tick_calls = (worldWith codes0.BT_FAILURE).tick_calls ∧
      w1.halt_calls = (worldWith codes0.BT_FAILURE).halt_calls ∧
      is_halt_requested w1.self = is_halt_requested (worldWith codes0.BT_FAILURE).self ∧
      get_status (worldWith codes0.BT_FAILURE).self ≠ (envReturning 1).BT_IDLE :=
  C2_tick_after_terminal (envReturning 1) [] (worldWith codes0.BT_FAILURE) (Or.inr rfl)

/-- C2 fails as stated: with Status SUCCESS, `request_tick` returns SUCCESS,
which is not IDLE (Status itself does become IDLE). -/
theorem C2_returns_idle_counterexample :
    get_status (worldWith codes0.BT_SUCCESS).self = (envReturning 1).BT_SUCCESS ∧
      request_tick (envReturning 1) [] (worldWith codes0.BT_SUCCESS) =
        some (codes0.BT_SUCCESS, worldWith codes0.BT_IDLE) ∧
      codes0.BT_SUCCESS ≠ (envReturning 1).BT_IDLE := by
  refine ⟨rfl, rfl, ?_⟩
  decide

/-! ## Ticks that start a new action -/

/-- C3 at the failing input: Status is HALTED and the thread started by
`request_tick` has not run yet when the first sleep ends. The loop reads
HALTED, which is not IDLE, and ends: `request_tick` returns the HALTED that was
there before the call, while the new thread is still before its
`set_status(BT_RUNNING)` and the body has not been called. -/
theorem C3_halted_returns_stale_status :
    get_status (worldWith codes0.BT_HALTED).self = (envReturning codes0.BT_SUCCESS).BT_HALTED ∧
      request_tick (envReturning codes0.BT_SUCCESS) [[]] (worldWith codes0.BT_HALTED) =
        some (codes0.BT_HALTED, { worldWith codes0.BT_HALTED with threads := [Pc.start] }) ∧
      codes0.BT_HALTED ≠ (envReturning codes0.BT_SUCCESS).BT_RUNNING ∧
      codes0.BT_HALTED ≠ codes0.BT_SUCCESS := by
  refine ⟨rfl, rfl, ?_, ?_⟩ <;> decide

/-! ## ERROR -/

/-- One remote call served in Status ERROR: it returns, Status stays ERROR, no
thread is started or advanced, neither hook is called, and a reply (if the call
has one) is ERROR. -/
theorem serve_error (e : Env) (r : Request) (w : World)
    (h : get_status w.self = e.BT_ERROR) :
    ∃ a w1, serve e r w = some (a, w1) ∧ get_status w1.self = e.BT_ERROR ∧
      w1.threads = w.threads ∧ w1.tick_calls = w.tick_calls ∧ w1.halt_calls = w.halt_calls ∧
      (a = none ∨ a = some e.BT_ERROR) := by
  have hne : e.BT_ERROR ≠ e.BT_RUNNING := fun hh =>
    e.toStatusCodes.pairwise_ne.2.2.2.2.1 hh.symm
  cases r with
  | tick sched =>
      refine ⟨some e.BT_ERROR, { w with error_logs := w.error_logs + 1 }, ?_, h, rfl, rfl, rfl,
        Or.inr rfl⟩
      simp [serve, request_tick_error e sched w h]
  | halt =>
      have hs : get_status (set_halt_requested true w.self) = e.BT_ERROR := h
      refine ⟨none, { w with self := set_halt_requested true w.self }, ?_, h, rfl, rfl, rfl,
        Or.inl rfl⟩
      simp [serve, request_halt, hs, hne]
  | status =>
      exact ⟨some e.BT_ERROR, w, by simp [serve, request_status, h], h, rfl, rfl, rfl, Or.inr rfl⟩

/-- C4: ERROR is sticky. With Status ERROR, `request_tick` returns ERROR
whatever the schedule, leaves the server members as they are and starts no
thread; and every sequence of `request_tick`, `request_halt` and
`request_status` calls is served completely, ends with Status ERROR and the
same threads, calls neither hook, and every status it replies is ERROR. -/
theorem C4_error_is_sticky (e : Env) (w : World) (h : get_status w.self = e.BT_ERROR) :
    (∀ sched, ∃ w1, request_tick e sched w = some (e.BT_ERROR, w1) ∧ w1.self = w.self ∧
        w1.threads = w.threads ∧ w1.tick_calls = w.tick_calls) ∧
      ∀ reqs, ∃ replies w1, serveAll e reqs w = some (replies, w1) ∧
        get_status w1.self = e.BT_ERROR ∧ w1.threads = w.threads ∧
        w1.tick_calls = w.tick_calls ∧ w1.halt_calls = w.halt_calls ∧
        ∀ a ∈ replies, a = none ∨ a = some e.BT_ERROR := by
  constructor
  · intro sched
    exact ⟨_, request_tick_error e sched w h, rfl, rfl, rfl⟩
  · intro reqs
    induction reqs generalizing w with
    | nil => exact ⟨[], w, rfl, h, rfl, rfl, rfl, by simp⟩
    | cons r rest ih =>
        obtain ⟨a, w1, hs, h1, ht1, hk1, hh1, ha⟩ := serve_error e r w h
        obtain ⟨as, w2, hs2, h2, ht2, hk2, hh2, has⟩ := ih w1 h1
        refine ⟨a :: as, w2, ?_, h2, ht2.trans ht1, hk2.trans hk1, hh2.trans hh1, ?_⟩
        · simp [serveAll, hs, hs2]
        · intro b hb
          rcases List.mem_cons.mp hb with hb | hb
          · rw [hb]; exact ha
          · exact has b hb

theorem C4_error_is_sticky_witness :
    get_status errorWorld.self = (envReturning 1).BT_ERROR ∧
      ∃ replies w1, serveAll (envReturning 1)
          [Request.tick [[0]], Request.halt, Request.status, Request.tick []] errorWorld =
            some (replies, w1) ∧
        get_status w1.self = (envReturning 1).BT_ERROR ∧ w1.threads = errorWorld.threads ∧
        w1.tick_calls = errorWorld.tick_calls ∧ w1.halt_calls = errorWorld.halt_calls ∧
        ∀ a ∈ replies, a = none ∨ a = some (envReturning 1).BT_ERROR :=
  ⟨rfl, (C4_error_is_sticky (envReturning 1) errorWorld rfl).2
    [Request.tick [[0]], Request.halt, Request.status, Request.tick []]⟩

/-! ## A body that raises -/

/-- C5 (as in the code): `executeTick` has no handler. When the body raises,
the exception leaves `executeTick`, the final `set_status` is not run, and the
members are exactly as the body left them; the body was called once. If the
body did not write the status, the last Status stored is RUNNING, not ERROR.
`executeTick` runs as the entry function of the thread that `request_tick`
starts, so the exception ends the process: the thread started on `w` ends it
with its second statement, and a `request_tick` that reads IDLE or HALTED and
during whose first sleep the new thread gets that far returns nothing. -/
theorem C5_fault_skips_publish (e : Env) (w : World) (s2 : TickServer)
    (h : e.tick (set_status e.BT_RUNNING w.self) = (BodyResult.fault, s2)) :
    (∃ w2, executeTick e w = Except.error w2 ∧ w2.self = s2 ∧
      w2.tick_calls = w.tick_calls + 1 ∧ w2.threads = w.threads ∧
      (get_status s2 = get_status (set_status e.BT_RUNNING w.self) →
        get_status w2.self = e.BT_RUNNING ∧ get_status w2.self ≠ e.BT_ERROR)) ∧
      sleep_for e [w.threads.length] (spawn w) =
        some { w with self := set_status e.BT_RUNNING w.self,
                      threads := w.threads ++ [Pc.body] } ∧
      (∀ d, sleep_for e (w.threads.length :: w.threads.length :: d) (spawn w) = none) ∧
      (get_status w.self = e.BT_IDLE ∨ get_status w.self = e.BT_HALTED →
        ∀ d rest, request_tick e ((w.threads.length :: w.threads.length :: d) :: rest) w =
          none) := by
  have hstart : thread_step e w.threads.length (spawn w) =
      some { w with self := set_status e.BT_RUNNING w.self,
                    threads := w.threads ++ [Pc.body] } := by
    simp [thread_step, spawn]
  have hbody : thread_step e w.threads.length
      { w with self := set_status e.BT_RUNNING w.self, threads := w.threads ++ [Pc.body] } =
      none := by
    have hg : (w.threads ++ [Pc.body]).get? w.threads.length = some Pc.body := by simp
    simp only [thread_step, hg, call_tick, h]
  have hsleep : ∀ d, sleep_for e (w.threads.length :: w.threads.length :: d) (spawn w) =
      none := by
    intro d
    simp only [sleep_for, hstart, hbody]
  refine ⟨⟨{ w with self := s2, tick_calls := w.tick_calls + 1 }, ?_, rfl, rfl, rfl, ?_⟩,
    ?_, hsleep, ?_⟩
  · simp [executeTick, call_tick, h]
  · intro hs
    have hr : get_status s2 = e.BT_RUNNING := hs
    refine ⟨hr, ?_⟩
    show get_status s2 ≠ e.BT_ERROR
    rw [hr]
    exact e.toStatusCodes.pairwise_ne.2.2.2.2.1
  · simp only [sleep_for, hstart]
  · intro hst d rest
    rw [request_tick_spawns e _ w hst]
    simp only [poll, hsleep]

theorem C5_fault_skips_publish_witness :
    envFaulting.tick (set_status envFaulting.BT_RUNNING (worldWith codes0.BT_IDLE).self) =
        (BodyResult.fault, set_status codes0.BT_RUNNING (worldWith codes0.BT_IDLE).self) ∧
      (∃ w2, executeTick envFaulting (worldWith codes0.BT_IDLE) = Except.error w2 ∧
        w2.self = set_status codes0.BT_RUNNING (worldWith codes0.BT_IDLE).self ∧
        w2.tick_calls = (worldWith codes0.BT_IDLE).tick_calls + 1 ∧
        w2.threads = (worldWith codes0.BT_IDLE).threads ∧
        (get_status (set_status codes0.BT_RUNNING (worldWith codes0.BT_IDLE).self) =
            get_status (set_status envFaulting.BT_RUNNING (worldWith codes0.BT_IDLE).self) →
          get_status w2.self = envFaulting.BT_RUNNING ∧
            get_status w2.self ≠ envFaulting.BT_ERROR)) ∧
      get_status (worldWith codes0.BT_IDLE).self = envFaulting.BT_IDLE ∧
      request_tick envFaulting [[0, 0, 0], [0]] (worldWith codes0.BT_IDLE) = none :=
  ⟨rfl,
    (C5_fault_skips_publish envFaulting (worldWith codes0.BT_IDLE)
      (set_status codes0.BT_RUNNING (worldWith codes0.BT_IDLE).self) rfl).1,
    rfl,
    (C5_fault_skips_publish envFaulting (worldWith codes0.BT_IDLE)
      (set_status codes0.BT_RUNNING (worldWith codes0.BT_IDLE).self) rfl).2.2.2 (Or.inl rfl)
      [0] [[0]]⟩

/-- C5 fails as stated: the body raises, and `executeTick` is left with Status
RUNNING, which is not ERROR. In the thread that `request_tick` starts, the
last state of the process has Status RUNNING with the thread inside the body;
the next statement of the thread ends the process, and the `request_tick`
that started it returns nothing. ERROR is never stored. -/
theorem C5_fault_leaves_running_counterexample :
    envFaulting.tick (set_status envFaulting.BT_RUNNING (worldWith codes0.BT_IDLE).self) =
        (BodyResult.fault, set_status envFaulting.BT_RUNNING (worldWith codes0.BT_IDLE).self) ∧
      executeTick envFaulting (worldWith codes0.BT_IDLE) =
        Except.error { worldWith codes0.BT_RUNNING with tick_calls := 1 } ∧
      sleep_for envFaulting [0] (spawn (worldWith codes0.BT_IDLE)) =
        some { worldWith codes0.BT_RUNNING with threads := [Pc.body] } ∧
      sleep_for envFaulting [0, 0] (spawn (worldWith codes0.BT_IDLE)) = none ∧
      request_tick envFaulting [[0, 0]] (worldWith codes0.BT_IDLE) = none ∧
      codes0.BT_RUNNING ≠ envFaulting.BT_ERROR := by
  refine ⟨rfl, rfl, rfl, rfl, rfl, ?_⟩
  decide

/-! ## Halt and status requests -/

/-- C6: in every state `request_halt` first stores `true` in HaltRequested;
then, if the Status it reads is RUNNING, it calls the halt hook exactly once,
on the state in which HaltRequested is true, and the result of the hook is the
result of `request_halt`; otherwise it calls the hook not at all and
HaltRequested is true afterwards. A hook that does not write HaltRequested
leaves it true in both cases. No thread is started and the body is not
called. -/
theorem C6_request_halt (e : Env) (w : World) :
    is_halt_requested (set_halt_requested true w.self) = true ∧
      (get_status w.self = e.BT_RUNNING →
        (request_halt e w).halt_calls = w.halt_calls + 1 ∧
          (request_halt e w).self = e.halt (set_halt_requested true w.self)) ∧
      (get_status w.self ≠ e.BT_RUNNING →
        (request_halt e w).halt_calls = w.halt_calls ∧
          (request_halt e w).self = set_halt_requested true w.self ∧
          is_halt_requested (request_halt e w).self = true) ∧
      ((∀ s, is_halt_requested (e.halt s) = is_halt_requested s) →
        is_halt_requested (request_halt e w).self = true) ∧
      (request_halt e w).threads = w.threads ∧
      (request_halt e w).tick_calls = w.tick_calls := by
  have hs : get_status (set_halt_requested true w.self) = get_status w.self := rfl
  by_cases h : get_status w.self = e.BT_RUNNING
  · have hr : request_halt e w = call_halt e { w with self := set_halt_requested true w.self } := by
      simp [request_halt, hs, h]
    refine ⟨rfl, fun _ => ?_, fun hn => absurd h hn, fun hk => ?_, ?_, ?_⟩
    · rw [hr]; exact ⟨rfl, rfl⟩
    · rw [hr]; exact (hk _).trans rfl
    · rw [hr]; rfl
    · rw [hr]; rfl
  · have hr : request_halt e w = { w with self := set_halt_requested true w.self } := by
      simp [request_halt, hs, h]
    refine ⟨rfl, fun hh => absurd hh h, fun _ => ?_, fun _ => ?_, ?_, ?_⟩
    · rw [hr]; exact ⟨rfl, rfl, rfl⟩
    · rw [hr]; rfl
    · rw [hr]
    · rw [hr]

theorem C6_request_halt_witness :
    get_status runningWorld.self = (envReturning 1).BT_RUNNING ∧
      (request_halt (envReturning 1) runningWorld).halt_calls = runningWorld.halt_calls + 1 ∧
      (request_halt (envReturning 1) runningWorld).self =
        (envReturning 1).halt (set_halt_requested true runningWorld.self) ∧
      get_status (worldWith codes0.BT_IDLE).self ≠ (envReturning 1).BT_RUNNING ∧
      (request_halt (envReturning 1) (worldWith codes0.BT_IDLE)).halt_calls =
        (worldWith codes0.BT_IDLE).halt_calls ∧
      is_halt_requested (request_halt (envReturning 1) runningWorld).self = true :=
  ⟨rfl, ((C6_request_halt (envReturning 1) runningWorld).2.1 rfl).1,
    ((C6_request_halt (envReturning 1) runningWorld).2.1 rfl).2, by decide,
    ((C6_request_halt (envReturning 1) (worldWith codes0.BT_IDLE)).2.2.1 (by decide)).1,
    (C6_request_halt (envReturning 1) runningWorld).2.2.2.1 (fun _ => rfl)⟩

/-- C7: when Status is not RUNNING (IDLE, SUCCESS, FAILURE, HALTED, ERROR or
any other value), `request_halt` leaves Status as it is, starts and advances
no thread, and calls neither the halt hook nor the body. -/
theorem C7_request_halt_not_running (e : Env) (w : World)
    (h : get_status w.self ≠ e.BT_RUNNING) :
    get_status (request_halt e w).self = get_status w.self ∧
      (request_halt e w).threads = w.threads ∧
      (request_halt e w).halt_calls = w.halt_calls ∧
      (request_halt e w).tick_calls = w.tick_calls ∧
      (request_halt e w).self.module_name_ = w.self.module_name_ := by
  have hs : get_status (set_halt_requested true w.self) = get_status w.self := rfl
  have hr : request_halt e w = { w with self := set_halt_requested true w.self } := by
    simp [request_halt, hs, h]
  rw [hr]
  exact ⟨rfl, rfl, rfl, rfl, rfl⟩

theorem C7_request_halt_not_running_witness :
    get_status haltedWorld.self ≠ (envReturning 1).BT_RUNNING ∧
      get_status (request_halt (envReturning 1) haltedWorld).self = get_status haltedWorld.self ∧
      (request_halt (envReturning 1) haltedWorld).threads = haltedWorld.threads ∧
      (request_halt (envReturning 1) haltedWorld).halt_calls = haltedWorld.halt_calls ∧
      (request_halt (envReturning 1) haltedWorld).tick_calls = haltedWorld.tick_calls ∧
      (request_halt (envReturning 1) haltedWorld).self.module_name_ =
        haltedWorld.self.module_name_ :=
  ⟨by decide, C7_request_halt_not_running (envReturning 1) haltedWorld (by decide)⟩

/-- C8: `request_status` returns the current Status and changes nothing:
members, threads and counters are the same, and a second `request_status`
right after the first returns the same value. -/
theorem C8_request_status_pure (w : World) :
    (request_status w).1 = w.self.status_ ∧ (request_status w).2 = w ∧
      (request_status (request_status w).2).1 = (request_status w).1 := by
  exact ⟨rfl, rfl, rfl⟩

/-- C9: after either constructor, whatever the members held before, Status is
IDLE and HaltRequested is false, and `request_status` on the fresh server
returns IDLE. -/
theorem C9_constructed_idle (c : StatusCodes) (name : String) (raw : TickServer) :
    get_status (TickServer.ctor c raw) = c.BT_IDLE ∧
      is_halt_requested (TickServer.ctor c raw) = false ∧
      get_status (TickServer.ctor_name c name raw) = c.BT_IDLE ∧
      is_halt_requested (TickServer.ctor_name c name raw) = false ∧
      (request_status (World.fresh (TickServer.ctor c raw))).1 = c.BT_IDLE ∧
      (request_status (World.fresh (TickServer.ctor_name c name raw))).1 = c.BT_IDLE := by
  exact ⟨rfl, rfl, rfl, rfl, rfl, rfl⟩

/-! ## The polling loop -/

/-- Writing the program counter of the newest thread. -/
theorem set_newest (l : List Pc) (p q : Pc) : (l ++ [p]).set l.length q = l ++ [q] := by
  simp

/-- The first statement run by a thread that was just started. -/
theorem thread_step_spawned (e : Env) (w : World) :
    thread_step e w.threads.length (spawn w) =
      some { w with self := set_status e.BT_RUNNING w.self,
                    threads := w.threads ++ [Pc.body] } := by
  simp [thread_step, spawn]

/-- Rounds of the loop in which no thread runs and Status is IDLE go on to the
next round. -/
theorem poll_idle_rounds (e : Env) (n : Nat) (sched : List (List Nat)) (w : World)
    (h : get_status w.self = e.BT_IDLE) :
    poll e (List.replicate n [] ++ sched) w = poll e sched w := by
  induction n with
  | zero => rfl
  | succ n ih => simp [List.replicate_succ, poll, sleep_for, h, ih]

/-- With Status IDLE: once the new thread has run its first statement, and only
that, during a sleep, `request_tick` returns RUNNING. -/
theorem request_tick_idle_running (e : Env) (n : Nat) (rest : List (List Nat)) (w : World)
    (h : get_status w.self = e.BT_IDLE) :
    request_tick e (List.replicate n [] ++ [w.threads.length] :: rest) w =
      some (e.BT_RUNNING,
        { w with self := set_status e.BT_RUNNING w.self, threads := w.threads ++ [Pc.body] }) := by
  have hne : e.BT_RUNNING ≠ e.BT_IDLE := e.toStatusCodes.pairwise_ne.2.2.1
  rw [request_tick_spawns e _ w (Or.inl h), poll_idle_rounds e n _ (spawn w) h]
  simp [poll, sleep_for, thread_step_spawned, get_status, set_status, hne]

/-- The call of the body by a thread, when the body returns. -/
theorem thread_step_body (e : Env) (i : Nat) (x : World) (r : Int) (s2 : TickServer)
    (hpc : x.threads.get? i = some Pc.body)
    (hb : e.tick x.self = (BodyResult.returned r, s2)) :
    thread_step e i x =
      some { x with self := s2, threads := x.threads.set i (Pc.publish r),
                    tick_calls := x.tick_calls + 1 } := by
  simp only [thread_step, hpc, call_tick, hb]

/-- The call of the body by a thread, when the body raises: the process
ends. -/
theorem thread_step_fault (e : Env) (i : Nat) (x : World) (s2 : TickServer)
    (hpc : x.threads.get? i = some Pc.body)
    (hb : e.tick x.self = (BodyResult.fault, s2)) :
    thread_step e i x = none := by
  simp only [thread_step, hpc, call_tick, hb]

/-- The last statement of a thread. -/
theorem thread_step_publish (e : Env) (i : Nat) (x : World) (r : Int)
    (hpc : x.threads.get? i = some (Pc.publish r)) :
    thread_step e i x =
      some { x with self := set_status r x.self, threads := x.threads.set i Pc.finished } := by
  simp only [thread_step, hpc]

/-- A thread started on `w` that runs all three statements of `executeTick`
in a row, the body returning `r`. -/
theorem sleep_for_whole_thread (e : Env) (w : World) (r : Int) (s2 : TickServer)
    (hb : e.tick (set_status e.BT_RUNNING w.self) = (BodyResult.returned r, s2)) :
    sleep_for e [w.threads.length, w.threads.length, w.threads.length] (spawn w) =
      some { w with self := set_status r s2, threads := w.threads ++ [Pc.finished],
                    tick_calls := w.tick_calls + 1 } := by
  have h2 := thread_step_body e w.threads.length
    { w with self := set_status e.BT_RUNNING w.self, threads := w.threads ++ [Pc.body] } r s2
    (by simp) hb
  have h3 := thread_step_publish e w.threads.length
    { w with self := s2, threads := w.threads ++ [Pc.publish r],
             tick_calls := w.tick_calls + 1 } r (by simp)
  simp only [set_newest] at h2 h3
  simp only [sleep_for, thread_step_spawned, h2, h3]

/-- A step of a thread that has left `executeTick`, or of no thread, changes
nothing. -/
theorem thread_step_dead (e : Env) (i : Nat) (x : World)
    (h : ∀ pc, x.threads.get? i = some pc → pc.dead = true) :
    thread_step e i x = some x := by
  cases hget : x.threads.get? i with
  | none => simp only [thread_step, hget]
  | some pc =>
      have hd := h pc hget
      cases pc <;> simp_all [thread_step, Pc.dead]

/-- The thread model agrees with `executeTick`: a thread started on `w` that
runs its statements in a row leaves the world that `executeTick` leaves, with
the thread recorded as `finished`, when `executeTick` returns normally; and it
ends the process when an exception leaves `executeTick`. -/
theorem thread_runs_executeTick (e : Env) (w : World) :
    match executeTick e w with
    | Except.ok w1 =>
        sleep_for e [w.threads.length, w.threads.length, w.threads.length] (spawn w) =
          some { w1 with threads := w.threads ++ [Pc.finished] }
    | Except.error _ =>
        sleep_for e [w.threads.length, w.threads.length, w.threads.length] (spawn w) =
          none := by
  cases hb : e.tick (set_status e.BT_RUNNING w.self) with
  | mk res s2 =>
      cases res with
      | returned r =>
          simp only [executeTick, call_tick, hb]
          exact sleep_for_whole_thread e w r s2 hb
      | fault =>
          have h2 := thread_step_fault e w.threads.length
            { w with self := set_status e.BT_RUNNING w.self,
                     threads := w.threads ++ [Pc.body] } s2 (by simp) hb
          simp only [executeTick, call_tick, hb]
          simp only [sleep_for, thread_step_spawned, h2]

/-- With Status IDLE: when the new thread has run all of `executeTick` during
one sleep and the body returned `r`, not IDLE, `request_tick` returns `r`. -/
theorem request_tick_idle_done (e : Env) (n : Nat) (rest : List (List Nat)) (w : World)
    (r : Int) (s2 : TickServer) (h : get_status w.self = e.BT_IDLE)
    (hb : e.tick (set_status e.BT_RUNNING w.self) = (BodyResult.returned r, s2))
    (hr : r ≠ e.BT_IDLE) :
    request_tick e
        (List.replicate n [] ++
          [w.threads.length, w.threads.length, w.threads.length] :: rest) w =
      some (r, { w with self := set_status r s2, threads := w.threads ++ [Pc.finished],
                        tick_calls := w.tick_calls + 1 }) := by
  rw [request_tick_spawns e _ w (Or.inl h), poll_idle_rounds e n _ (spawn w) h]
  simp only [poll, sleep_for_whole_thread e w r s2 hb]
  simp [get_status, set_status, hr]

/-- While the threads in `old` have all left `executeTick`, a step of any
thread that does not end the process keeps them as they are, and the newest
thread is either still at `start`, with the world as it was at `w0`, or past
it. -/
theorem thread_step_newest (e : Env) (old : List Pc) (hold : ∀ pc ∈ old, pc.dead = true)
    (w0 x x1 : World) (i : Nat)
    (hx : ∃ pc, x.threads = old ++ [pc] ∧ (pc = Pc.start → x = w0))
    (hstep : thread_step e i x = some x1) :
    ∃ pc, x1.threads = old ++ [pc] ∧ (pc = Pc.start → x1 = w0) := by
  obtain ⟨pc, hth, hst⟩ := hx
  by_cases hi : i = old.length
  · subst hi
    have hget : x.threads.get? old.length = some pc := by rw [hth]; simp
    cases pc with
    | start =>
        simp only [thread_step, hget, Option.some.injEq] at hstep
        refine ⟨Pc.body, ?_, fun hh => by cases hh⟩
        rw [← hstep]
        simp only [hth, set_newest]
    | body =>
        cases hc : e.tick x.self with
        | mk res s2 =>
            cases res with
            | returned r =>
                simp only [thread_step, hget, call_tick, hc, Option.some.injEq] at hstep
                refine ⟨Pc.publish r, ?_, fun hh => by cases hh⟩
                rw [← hstep]
                simp only [hth, set_newest]
            | fault =>
                simp only [thread_step, hget, call_tick, hc, reduceCtorEq] at hstep
    | publish r =>
        simp only [thread_step, hget, Option.some.injEq] at hstep
        refine ⟨Pc.finished, ?_, fun hh => by cases hh⟩
        rw [← hstep]
        simp only [hth, set_newest]
    | finished =>
        simp only [thread_step, hget, Option.some.injEq] at hstep
        refine ⟨Pc.finished, ?_, fun hh => by cases hh⟩
        rw [← hstep]
        exact hth
  · have hsame : thread_step e i x = some x := by
      apply thread_step_dead
      intro q hq
      rw [hth, List.get?_eq_getElem?] at hq
      have hlt : i < (old ++ [pc]).length := (List.getElem?_eq_some.mp hq).1
      have hlt2 : i < old.length := by
        simp only [List.length_append, List.length_singleton] at hlt
        omega
      rw [List.getElem?_append_left hlt2] at hq
      exact hold q (List.getElem?_mem hq)
    rw [hsame] at hstep
    rw [← Option.some.inj hstep]
    exact ⟨pc, hth, hst⟩

/-- The same for everything that happens during one sleep. -/
theorem sleep_for_newest (e : Env) (old : List Pc) (hold : ∀ pc ∈ old, pc.dead = true)
    (w0 : World) (d : List Nat) (x x1 : World)
    (hx : ∃ pc, x.threads = old ++ [pc] ∧ (pc = Pc.start → x = w0))
    (hsleep : sleep_for e d x = some x1) :
    ∃ pc, x1.threads = old ++ [pc] ∧ (pc = Pc.start → x1 = w0) := by
  induction d generalizing x with
  | nil =>
      simp only [sleep_for, Option.some.injEq] at hsleep
      rw [← hsleep]
      exact hx
  | cons i rest ih =>
      cases hstep : thread_step e i x with
      | none => simp [sleep_for, hstep] at hsleep
      | some x2 =>
          simp only [sleep_for, hstep] at hsleep
          exact ih x2 (thread_step_newest e old hold w0 x x2 i hx hstep) hsleep

/-- The same for the whole polling loop, when it ends; and the status it
returns is the one stored at that moment, which is not IDLE. -/
theorem poll_newest (e : Env) (old : List Pc) (hold : ∀ pc ∈ old, pc.dead = true)
    (w0 : World) (sched : List (List Nat)) (x : World) (rs : Int) (w1 : World)
    (hx : ∃ pc, x.threads = old ++ [pc] ∧ (pc = Pc.start → x = w0))
    (hp : poll e sched x = some (rs, w1)) :
    rs = get_status w1.self ∧ rs ≠ e.BT_IDLE ∧
      ∃ pc, w1.threads = old ++ [pc] ∧ (pc = Pc.start → w1 = w0) := by
  induction sched generalizing x with
  | nil => simp [poll] at hp
  | cons d rest ih =>
      cases hsleep : sleep_for e d x with
      | none => simp [poll, hsleep] at hp
      | some x1 =>
          have hs := sleep_for_newest e old hold w0 d x x1 hx hsleep
          by_cases hidle : get_status x1.self = e.BT_IDLE
          · have hp2 : poll e rest x1 = some (rs, w1) := by
              simpa [poll, hsleep, hidle] using hp
            exact ih x1 hs hp2
          · have hp2 : (get_status x1.self, x1) = (rs, w1) := by
              simpa [poll, hsleep, hidle] using hp
            obtain ⟨h1, h2⟩ := Prod.mk.inj hp2
            subst h1 h2
            exact ⟨rfl, hidle, hs⟩

/-- The part of C3 that the code does guarantee. With Status IDLE and no other
thread still inside `executeTick`: whenever `request_tick` returns, exactly one
thread has been added, that thread is past its `set_status(BT_RUNNING)`, and
the returned status is the one stored at that moment and is not IDLE. -/
theorem request_tick_idle_started (e : Env) (sched : List (List Nat)) (w : World)
    (rs : Int) (w1 : World) (h : get_status w.self = e.BT_IDLE)
    (hold : ∀ pc ∈ w.threads, pc.dead = true)
    (hr : request_tick e sched w = some (rs, w1)) :
    rs = get_status w1.self ∧ rs ≠ e.BT_IDLE ∧
      ∃ pc, w1.threads = w.threads ++ [pc] ∧ pc ≠ Pc.start := by
  rw [request_tick_spawns e sched w (Or.inl h)] at hr
  obtain ⟨h1, h2, pc, h3, h4⟩ :=
    poll_newest e w.threads hold (spawn w) sched (spawn w) rs w1 ⟨Pc.start, rfl, fun _ => rfl⟩ hr
  refine ⟨h1, h2, pc, h3, fun hpc => h2 ?_⟩
  rw [h1, h4 hpc]
  exact h

/-! ## Reset and re-admission after SUCCESS -/

/-- C10 (as in the code): when an action has completed with SUCCESS, the next
`request_tick` is consumed by the reset: it returns SUCCESS (the status it
read, which is not IDLE), starts no thread, does not call the body and leaves
Status IDLE. The `request_tick` after it starts a new thread and loops while it
reads IDLE; it returns RUNNING if by the first sleep in which the new thread
runs, that thread has only stored RUNNING, and it returns the result of the
body (when that is not IDLE) if the thread has run to its end in that sleep. -/
theorem C10_reset_then_readmission (e : Env) (w : World) (sched : List (List Nat)) (n : Nat)
    (rest : List (List Nat)) (h : get_status w.self = e.BT_SUCCESS) :
    ∃ w1, request_tick e sched w = some (e.BT_SUCCESS, w1) ∧
      e.BT_SUCCESS ≠ e.BT_IDLE ∧
      get_status w1.self = e.BT_IDLE ∧ w1.threads = w.threads ∧ w1.tick_calls = w.tick_calls ∧
      (∃ w2, request_tick e (List.replicate n [] ++ [w1.threads.length] :: rest) w1 =
            some (e.BT_RUNNING, w2) ∧
          w2.threads = w.threads ++ [Pc.body] ∧ get_status w2.self = e.BT_RUNNING ∧
          w2.tick_calls = w.tick_calls) ∧
      ∀ r s2, e.tick (set_status e.BT_RUNNING w1.self) = (BodyResult.returned r, s2) →
        r ≠ e.BT_IDLE →
        ∃ w3, request_tick e
              (List.replicate n [] ++
                [w1.threads.length, w1.threads.length, w1.threads.length] :: rest) w1 =
            some (r, w3) ∧
          w3.threads = w.threads ++ [Pc.finished] ∧ get_status w3.self = r ∧
          w3.tick_calls = w.tick_calls + 1 := by
  have hne := e.toStatusCodes.pairwise_ne
  have h0 := request_tick_terminal e sched w (Or.inl h)
  rw [h] at h0
  refine ⟨{ w with self := set_status e.BT_IDLE w.self }, h0, hne.2.2.2.2.2.2.1, rfl, rfl, rfl,
    ?_, ?_⟩
  · exact ⟨_, request_tick_idle_running e n rest
      { w with self := set_status e.BT_IDLE w.self } rfl, rfl, rfl, rfl⟩
  · intro r s2 hb hr
    exact ⟨_, request_tick_idle_done e n rest
      { w with self := set_status e.BT_IDLE w.self } r s2 rfl hb hr, rfl, rfl, rfl⟩

theorem C10_reset_then_readmission_witness :
    run (envReturning codes0.BT_SUCCESS) scenarioStart freshWorld =
        some ([some codes0.BT_RUNNING, some codes0.BT_RUNNING, some codes0.BT_SUCCESS],
          scenarioWorld) ∧
      get_status scenarioWorld.self = (envReturning codes0.BT_SUCCESS).BT_SUCCESS ∧
      ∃ w1, request_tick (envReturning codes0.BT_SUCCESS) [] scenarioWorld =
          some (codes0.BT_SUCCESS, w1) ∧
        get_status w1.self = codes0.BT_IDLE ∧ w1.threads = scenarioWorld.threads ∧
        ∃ w2, request_tick (envReturning codes0.BT_SUCCESS) [[w1.threads.length]] w1 =
            some (codes0.BT_RUNNING, w2) ∧
          w2.threads = scenarioWorld.threads ++ [Pc.body] := by
  obtain ⟨w1, h1, -, h2, h3, -, ⟨w2, h4, h5, -, -⟩, -⟩ :=
    C10_reset_then_readmission (envReturning codes0.BT_SUCCESS) scenarioWorld [] 0 [] rfl
  exact ⟨rfl, rfl, w1, h1, h2, h3, w2, h4, h5⟩

/-- C10 fails as stated. In the scenario of the specification the tick after
the completed action returns SUCCESS, not IDLE. And the tick after that returns
SUCCESS, not RUNNING, when the new thread runs to its end during the sleep of
that tick (a body of 50 ms against a sleep of 100 ms). -/
theorem C10_scenario_counterexample :
    (run (envReturning codes0.BT_SUCCESS)
          (scenarioStart ++ [Step.call (Request.tick []), Step.call (Request.tick [[1]])])
          freshWorld).map Prod.fst =
        some [some codes0.BT_RUNNING, some codes0.BT_RUNNING, some codes0.BT_SUCCESS,
          some codes0.BT_SUCCESS, some codes0.BT_RUNNING] ∧
      codes0.BT_SUCCESS ≠ codes0.BT_IDLE ∧
      (run (envReturning codes0.BT_SUCCESS)
          (scenarioStart ++ [Step.call (Request.tick []), Step.call (Request.tick [[1, 1, 1]])])
          freshWorld).map Prod.fst =
        some [some codes0.BT_RUNNING, some codes0.BT_RUNNING, some codes0.BT_SUCCESS,
          some codes0.BT_SUCCESS, some codes0.BT_SUCCESS] ∧
      codes0.BT_SUCCESS ≠ codes0.BT_RUNNING := by
  refine ⟨rfl, ?_, rfl, ?_⟩ <;> decide

/-! ## Concurrent callers -/

/-- The loop run step by step, with the handle joinable as the caller left it
when it started the thread, is the loop of `request_tick`. -/
theorem tick_poll_alone_eq (e : Env) (sched : List (List Nat)) (w : World) (k : Nat) :
    tick_poll_alone e sched { world := w, execute_tick_thread_ := some k } = poll e sched w := by
  induction sched generalizing w with
  | nil => rfl
  | cons d rest ih =>
      cases hs : sleep_for e d w with
      | none => simp only [tick_poll_alone, poll, hs]
      | some w1 =>
          by_cases h : get_status w1.self = e.BT_IDLE
          · simp only [tick_poll_alone, poll, hs, tick_step, h, if_true]
            exact ih w1
          · simp only [tick_poll_alone, poll, hs, tick_step, h, if_false]

/-- A caller that runs `request_tick` step by step, with no other caller in
between and the handle not joinable at the start, does what `request_tick`
does. -/
theorem tick_alone_eq (e : Env) (sched : List (List Nat)) (w : World) :
    tick_alone e sched w = request_tick e sched w := by
  simp only [tick_alone, request_tick, tick_step]
  split_ifs
  · rfl
  · rfl
  · rfl
  · exact tick_poll_alone_eq e sched (spawn w) w.threads.length
  · rfl

/-- C11 at the failing inputs. Two callers enter `request_tick` on a fresh
server and both read IDLE before any thread exists. Caller 0 starts a thread,
the thread stores RUNNING, caller 0 leaves the loop, detaches and returns
RUNNING. Caller 1 still holds the IDLE it read (nothing holds a lock between
the read and the start) and starts a second thread, the handle being free
again: two threads are inside `executeTick`, and both go on to call the body.
If instead caller 1 reaches the start while caller 0 is still in its loop, the
assignment to the joinable handle ends the process. With one caller after the
other the same defect shows from HALTED: the first tick returns after its
first sleep, during which its thread has not run, the second tick reads HALTED
again and starts a second thread, and both threads call the body. -/
theorem C11_two_ticks_both_spawn :
    moves (envReturning codes0.BT_SUCCESS) [Move.caller 1, Move.caller 0] twoCallers =
        some { process := twoCallers.process,
               callers := [TickPc.switch codes0.BT_IDLE, TickPc.switch codes0.BT_IDLE] } ∧
      (moves (envReturning codes0.BT_SUCCESS)
          [Move.caller 1, Move.caller 0, Move.caller 0, Move.thread 0, Move.caller 0,
            Move.caller 0, Move.caller 1] twoCallers).map
          (fun c => (c.callers, c.process.world.threads, alive c.process.world)) =
        some ([TickPc.returned codes0.BT_RUNNING, TickPc.polling], [Pc.body, Pc.start], 2) ∧
      (moves (envReturning codes0.BT_SUCCESS)
          [Move.caller 1, Move.caller 0, Move.caller 0, Move.thread 0, Move.caller 0,
            Move.caller 0, Move.caller 1, Move.thread 1, Move.thread 0, Move.thread 1]
          twoCallers).map
          (fun c => (c.process.world.threads, c.process.world.tick_calls)) =
        some ([Pc.publish codes0.BT_SUCCESS, Pc.publish codes0.BT_SUCCESS], 2) ∧
      moves (envReturning codes0.BT_SUCCESS)
          [Move.caller 0, Move.caller 1, Move.caller 0, Move.caller 1] twoCallers = none ∧
      (serveAll (envReturning codes0.BT_SUCCESS) [Request.tick [[]], Request.tick [[]]]
          (worldWith codes0.BT_HALTED)).map (fun p => (p.1, p.2.threads, alive p.2)) =
        some ([some codes0.BT_HALTED, some codes0.BT_HALTED], [Pc.start, Pc.start], 2) ∧
      (run (envReturning codes0.BT_SUCCESS)
          [Step.call (Request.tick [[]]), Step.call (Request.tick [[]]),
            Step.threads [0, 1, 0, 1]]
          (worldWith codes0.BT_HALTED)).map (fun p => (p.2.threads, p.2.tick_calls)) =
        some ([Pc.publish codes0.BT_SUCCESS, Pc.publish codes0.BT_SUCCESS], 2) := by
  refine ⟨rfl, rfl, rfl, rfl, rfl, rfl⟩

/-! ## What `executeTick` publishes -/

/-- C13: `executeTick` first stores RUNNING, then calls the body once, on the
state in which Status is RUNNING; when the body returns `r`, whatever `r` is,
`executeTick` returns normally with Status equal to `r` (the other members as
the body left them), having started no thread and not called the halt hook.
If `r` is SUCCESS, FAILURE or HALTED, Status is then neither IDLE nor
RUNNING. The thread that runs `executeTick` statement by statement reaches the
same state. -/
theorem C13_executeTick_publishes (e : Env) (w : World) (r : Int) (s2 : TickServer)
    (hb : e.tick (set_status e.BT_RUNNING w.self) = (BodyResult.returned r, s2)) :
    get_status (set_status e.BT_RUNNING w.self) = e.BT_RUNNING ∧
      executeTick e w =
        Except.ok { w with self := set_status r s2, tick_calls := w.tick_calls + 1 } ∧
      get_status (set_status r s2) = r ∧
      sleep_for e [w.threads.length, w.threads.length, w.threads.length] (spawn w) =
        some { w with self := set_status r s2, threads := w.threads ++ [Pc.finished],
                      tick_calls := w.tick_calls + 1 } ∧
      (r = e.BT_SUCCESS ∨ r = e.BT_FAILURE ∨ r = e.BT_HALTED →
        get_status (set_status r s2) ≠ e.BT_IDLE ∧ get_status (set_status r s2) ≠ e.BT_RUNNING) := by
  refine ⟨rfl, ?_, rfl, sleep_for_whole_thread e w r s2 hb, ?_⟩
  · simp [executeTick, call_tick, hb]
  · intro hr
    have hne := e.toStatusCodes.pairwise_ne
    obtain ⟨h1, h2, -, h4, -, -, h7, -, -, h10, -, -, h13, -, -⟩ := hne
    show r ≠ e.BT_IDLE ∧ r ≠ e.BT_RUNNING
    rcases hr with hr | hr | hr
    · rw [hr]; exact ⟨h7, h1.symm⟩
    · rw [hr]; exact ⟨h10, h2.symm⟩
    · rw [hr]; exact ⟨h13.symm, h4.symm⟩

theorem C13_executeTick_publishes_witness :
    (envReturning codes0.BT_FAILURE).tick
        (set_status (envReturning codes0.BT_FAILURE).BT_RUNNING haltedWorld.self) =
        (BodyResult.returned codes0.BT_FAILURE, set_status codes0.BT_RUNNING haltedWorld.self) ∧
      executeTick (envReturning codes0.BT_FAILURE) haltedWorld =
        Except.ok { haltedWorld with
          self := set_status codes0.BT_FAILURE (set_status codes0.BT_RUNNING haltedWorld.self),
          tick_calls := haltedWorld.tick_calls + 1 } ∧
      get_status (set_status codes0.BT_FAILURE (set_status codes0.BT_RUNNING haltedWorld.self)) ≠
        (envReturning codes0.BT_FAILURE).BT_IDLE :=
  ⟨rfl,
    (C13_executeTick_publishes (envReturning codes0.BT_FAILURE) haltedWorld codes0.BT_FAILURE
      (set_status codes0.BT_RUNNING haltedWorld.self) rfl).2.1,
    ((C13_executeTick_publishes (envReturning codes0.BT_FAILURE) haltedWorld codes0.BT_FAILURE
      (set_status codes0.BT_RUNNING haltedWorld.self) rfl).2.2.2.2 (Or.inr (Or.inl rfl))).1⟩

/-! ## The halt request stays -/

/-- A statement of a thread keeps a halt request, and does not depend on
what the body would do without one. -/
theorem thread_step_halt (e : Env) (hk : keeps_halt_request e)
    (body : TickServer → BodyResult × TickServer)
    (hag : ∀ s, is_halt_requested s = true → body s = e.tick s) (i : Nat) (w : World)
    (h : is_halt_requested w.self = true) :
    (∀ w1, thread_step e i w = some w1 → is_halt_requested w1.self = true) ∧
      thread_step (with_body e body) i w = thread_step e i w := by
  have hrun : (with_body e body).BT_RUNNING = e.BT_RUNNING := rfl
  cases hget : w.threads.get? i with
  | none =>
      refine ⟨fun w1 hs => ?_, ?_⟩
      · simp only [thread_step, hget, Option.some.injEq] at hs
        rw [← hs]; exact h
      · simp only [thread_step, hget]
  | some pc =>
      cases pc with
      | start =>
          refine ⟨fun w1 hs => ?_, ?_⟩
          · simp only [thread_step, hget, Option.some.injEq] at hs
            rw [← hs]; exact h
          · simp only [thread_step, hget, hrun]
      | body =>
          have h1 := hk.1 w.self h
          have h2 : (with_body e body).tick w.self = e.tick w.self := hag w.self h
          cases hc : e.tick w.self with
          | mk res s2 =>
              rw [hc] at h1 h2
              cases res with
              | returned r =>
                  refine ⟨fun w1 hs => ?_, ?_⟩
                  · simp only [thread_step, hget, call_tick, hc, Option.some.injEq] at hs
                    rw [← hs]; exact h1
                  · simp only [thread_step, hget, call_tick, hc, h2]
              | fault =>
                  refine ⟨fun w1 hs => ?_, ?_⟩
                  · simp only [thread_step, hget, call_tick, hc, reduceCtorEq] at hs
                  · simp only [thread_step, hget, call_tick, hc, h2]
      | publish r =>
          refine ⟨fun w1 hs => ?_, ?_⟩
          · simp only [thread_step, hget, Option.some.injEq] at hs
            rw [← hs]; exact h
          · simp only [thread_step, hget]
      | finished =>
          refine ⟨fun w1 hs => ?_, ?_⟩
          · simp only [thread_step, hget, Option.some.injEq] at hs
            rw [← hs]; exact h
          · simp only [thread_step, hget]

/-- The same for one sleep. -/
theorem sleep_for_halt (e : Env) (hk : keeps_halt_request e)
    (body : TickServer → BodyResult × TickServer)
    (hag : ∀ s, is_halt_requested s = true → body s = e.tick s) (d : List Nat) (w : World)
    (h : is_halt_requested w.self = true) :
    (∀ w1, sleep_for e d w = some w1 → is_halt_requested w1.self = true) ∧
      sleep_for (with_body e body) d w = sleep_for e d w := by
  induction d generalizing w with
  | nil =>
      refine ⟨fun w1 hs => ?_, rfl⟩
      simp only [sleep_for, Option.some.injEq] at hs
      rw [← hs]; exact h
  | cons i rest ih =>
      obtain ⟨h1, h2⟩ := thread_step_halt e hk body hag i w h
      cases hstep : thread_step e i w with
      | none =>
          refine ⟨fun w1 hs => ?_, ?_⟩
          · simp [sleep_for, hstep] at hs
          · simp only [sleep_for, h2, hstep]
      | some w2 =>
          obtain ⟨h3, h4⟩ := ih w2 (h1 w2 hstep)
          refine ⟨fun w1 hs => h3 w1 ?_, ?_⟩
          · simpa only [sleep_for, hstep] using hs
          · simp only [sleep_for, h2, hstep, h4]

/-- The same for the polling loop. -/
theorem poll_halt (e : Env) (hk : keeps_halt_request e)
    (body : TickServer → BodyResult × TickServer)
    (hag : ∀ s, is_halt_requested s = true → body s = e.tick s) (sched : List (List Nat))
    (w : World) (h : is_halt_requested w.self = true) :
    (∀ rs w1, poll e sched w = some (rs, w1) → is_halt_requested w1.self = true) ∧
      poll (with_body e body) sched w = poll e sched w := by
  induction sched generalizing w with
  | nil => exact ⟨fun rs w1 hp => by simp [poll] at hp, rfl⟩
  | cons d rest ih =>
      obtain ⟨h1, h2⟩ := sleep_for_halt e hk body hag d w h
      have hidle : (with_body e body).BT_IDLE = e.BT_IDLE := rfl
      cases hsl : sleep_for e d w with
      | none =>
          refine ⟨fun rs w1 hp => ?_, ?_⟩
          · simp [poll, hsl] at hp
          · simp only [poll, h2, hsl]
      | some w2 =>
          have hw2 := h1 w2 hsl
          obtain ⟨h3, h4⟩ := ih w2 hw2
          by_cases hc : get_status w2.self = e.BT_IDLE
          · refine ⟨fun rs w1 hp => h3 rs w1 ?_, ?_⟩
            · simpa [poll, hsl, hc] using hp
            · simp only [poll, h2, hsl, hidle, hc, if_true, h4]
          · refine ⟨fun rs w1 hp => ?_, ?_⟩
            · have hp2 : (get_status w2.self, w2) = (rs, w1) := by
                simpa [poll, hsl, hc] using hp
              rw [← (Prod.mk.inj hp2).2]
              exact hw2
            · simp only [poll, h2, hsl, hidle, hc, if_false]

/-- The same for `request_tick`. -/
theorem request_tick_halt (e : Env) (hk : keeps_halt_request e)
    (body : TickServer → BodyResult × TickServer)
    (hag : ∀ s, is_halt_requested s = true → body s = e.tick s) (sched : List (List Nat))
    (w : World) (h : is_halt_requested w.self = true) :
    (∀ rs w1, request_tick e sched w = some (rs, w1) → is_halt_requested w1.self = true) ∧
      request_tick (with_body e body) sched w = request_tick e sched w := by
  have hp := poll_halt e hk body hag sched (spawn w) h
  refine ⟨fun rs w1 hr => ?_, ?_⟩
  · simp only [request_tick] at hr
    split_ifs at hr
    · rw [← (Prod.mk.inj (Option.some.inj hr)).2]; exact h
    · rw [← (Prod.mk.inj (Option.some.inj hr)).2]; exact h
    · rw [← (Prod.mk.inj (Option.some.inj hr)).2]; exact h
    · exact hp.1 rs w1 hr
    · rw [← (Prod.mk.inj (Option.some.inj hr)).2]; exact h
  · unfold request_tick
    rw [hp.2]
    rfl

/-- After `request_halt` HaltRequested is true, whatever it was. -/
theorem request_halt_sets (e : Env) (hk : keeps_halt_request e) (w : World) :
    is_halt_requested (request_halt e w).self = true := by
  simp only [request_halt]
  split_ifs
  · exact hk.2 _ rfl
  · rfl

/-- The same for one remote call. -/
theorem serve_halt (e : Env) (hk : keeps_halt_request e)
    (body : TickServer → BodyResult × TickServer)
    (hag : ∀ s, is_halt_requested s = true → body s = e.tick s) (r : Request)
    (w : World) (h : is_halt_requested w.self = true) :
    (∀ a w1, serve e r w = some (a, w1) → is_halt_requested w1.self = true) ∧
      serve (with_body e body) r w = serve e r w := by
  cases r with
  | tick sched =>
      obtain ⟨h1, h2⟩ := request_tick_halt e hk body hag sched w h
      refine ⟨fun a w1 hs => ?_, ?_⟩
      · simp only [serve, Option.map_eq_some'] at hs
        obtain ⟨p, hp, hq⟩ := hs
        rw [← (Prod.mk.inj hq).2]
        exact h1 p.1 p.2 hp
      · simp only [serve, h2]
  | halt =>
      refine ⟨fun a w1 hs => ?_, rfl⟩
      simp only [serve, Option.some.injEq, Prod.mk.injEq] at hs
      rw [← hs.2]
      exact request_halt_sets e hk w
  | status =>
      refine ⟨fun a w1 hs => ?_, rfl⟩
      simp only [serve, request_status, Option.some.injEq, Prod.mk.injEq] at hs
      rw [← hs.2]
      exact h

/-- The same for a whole run of calls and thread steps. -/
theorem run_halt (e : Env) (hk : keeps_halt_request e)
    (body : TickServer → BodyResult × TickServer)
    (hag : ∀ s, is_halt_requested s = true → body s = e.tick s) (steps : List Step)
    (w : World) (h : is_halt_requested w.self = true) :
    (∀ replies w1, run e steps w = some (replies, w1) → is_halt_requested w1.self = true) ∧
      run (with_body e body) steps w = run e steps w := by
  induction steps generalizing w with
  | nil =>
      refine ⟨fun replies w1 hr => ?_, rfl⟩
      simp only [run, Option.some.injEq, Prod.mk.injEq] at hr
      rw [← hr.2]
      exact h
  | cons st rest ih =>
      cases st with
      | call r =>
          obtain ⟨h1, h2⟩ := serve_halt e hk body hag r w h
          cases hs : serve e r w with
          | none =>
              refine ⟨fun replies w1 hr => ?_, ?_⟩
              · simp [run, hs] at hr
              · simp only [run, h2, hs]
          | some p =>
              obtain ⟨a, w2⟩ := p
              obtain ⟨h3, h4⟩ := ih w2 (h1 a w2 hs)
              refine ⟨fun replies w1 hr => ?_, ?_⟩
              · cases hrest : run e rest w2 with
                | none => simp [run, hs, hrest] at hr
                | some q =>
                    obtain ⟨as, w3⟩ := q
                    simp only [run, hs, hrest, Option.some.injEq, Prod.mk.injEq] at hr
                    rw [← hr.2]
                    exact h3 as w3 hrest
              · simp only [run, h2, hs, h4]
      | threads d =>
          obtain ⟨h1, h2⟩ := sleep_for_halt e hk body hag d w h
          cases hsl : sleep_for e d w with
          | none =>
              refine ⟨fun replies w1 hr => ?_, ?_⟩
              · simp [run, hsl] at hr
              · simp only [run, h2, hsl]
          | some w2 =>
              obtain ⟨h3, h4⟩ := ih w2 (h1 w2 hsl)
              refine ⟨fun replies w1 hr => h3 replies w1 ?_, ?_⟩
              · simpa only [run, hsl] using hr
              · simp only [run, h2, hsl, h4]

/-- C14: HaltRequested is only ever stored `false` by the constructors. For a
skill whose hooks leave a halt request in place: after `request_halt`
HaltRequested is true; and once it is true it is true after every run of
`request_tick`, `request_halt`, `request_status` and thread steps, after every
single thread step that leaves the process alive, and after `executeTick`,
whether the body returns or raises. The state on which `executeTick` calls the body has HaltRequested
true, and in no run is the body called on a state in which it is false:
replacing the body by any other that does the same on the states with
HaltRequested true changes no run. -/
theorem C14_halt_request_stays (e : Env) (hk : keeps_halt_request e) :
    (∀ w, is_halt_requested (request_halt e w).self = true) ∧
      ∀ w, is_halt_requested w.self = true →
        (∀ steps replies w1, run e steps w = some (replies, w1) →
          is_halt_requested w1.self = true) ∧
        (∀ i w1, thread_step e i w = some w1 → is_halt_requested w1.self = true) ∧
        is_halt_requested (set_status e.BT_RUNNING w.self) = true ∧
        (∀ w1, executeTick e w = Except.ok w1 ∨ executeTick e w = Except.error w1 →
          is_halt_requested w1.self = true) ∧
        ∀ body, (∀ s, is_halt_requested s = true → body s = e.tick s) →
          ∀ steps, run (with_body e body) steps w = run e steps w := by
  refine ⟨request_halt_sets e hk, fun w h => ⟨?_, ?_, h, ?_, ?_⟩⟩
  · intro steps replies w1 hr
    exact (run_halt e hk e.tick (fun _ _ => rfl) steps w h).1 replies w1 hr
  · intro i w1 hs
    exact (thread_step_halt e hk e.tick (fun _ _ => rfl) i w h).1 w1 hs
  · intro w1 hx
    have hb := hk.1 (set_status e.BT_RUNNING w.self) h
    cases hc : e.tick (set_status e.BT_RUNNING w.self) with
    | mk res s2 =>
        rw [hc] at hb
        cases res with
        | returned r =>
            simp only [executeTick, call_tick, hc, Except.ok.injEq, reduceCtorEq, or_false] at hx
            rw [← hx]
            exact hb
        | fault =>
            simp only [executeTick, call_tick, hc, Except.error.injEq, reduceCtorEq,
              false_or] at hx
            rw [← hx]
            exact hb
  · intro body hag steps
    exact (run_halt e hk body hag steps w h).2

theorem C14_halt_request_stays_witness :
    keeps_halt_request envHaltAware ∧
      is_halt_requested haltRequestedWorld.self = true ∧
      run envHaltAware [Step.call (Request.tick [[1, 1, 1]]), Step.call Request.status]
          haltRequestedWorld =
        some ([some codes0.BT_HALTED, some codes0.BT_HALTED],
          { haltRequestedWorld with threads := [Pc.finished, Pc.finished], tick_calls := 2 }) ∧
      is_halt_requested
        ({ haltRequestedWorld with threads := [Pc.finished, Pc.finished], tick_calls := 2 } :
          World).self = true :=
  have hk : keeps_halt_request envHaltAware :=
    ⟨fun s h => by simp only [envHaltAware, h, if_true], fun _ h => h⟩
  ⟨hk, rfl, rfl,
    ((C14_halt_request_stays envHaltAware hk).2 haltRequestedWorld rfl).1
      [Step.call (Request.tick [[1, 1, 1]]), Step.call Request.status]
      [some codes0.BT_HALTED, some codes0.BT_HALTED]
      { haltRequestedWorld with threads := [Pc.finished, Pc.finished], tick_calls := 2 } rfl⟩

/-! ## The skills -/

/-- The wait loop ends without a halt exactly when no round saw one. -/
theorem wait_for_grasp_false (waits : List Bool) (halted_ready : Bool) :
    wait_for_grasp waits halted_ready = false ↔
      (∀ halted ∈ waits, halted = false) ∧ halted_ready = false := by
  induction waits with
  | nil => simp [wait_for_grasp]
  | cons halted rest ih =>
      cases halted <;> simp [wait_for_grasp, ih]

/-- The four ways in which `GraspBottle::execute_tick` ends: the null pointer
of `asList()` is dereferenced, or it returns FAILURE, HALTED or SUCCESS, each
time after storing that same value; with what is known of the answers in each
case. -/
theorem GraspBottle.execute_tick_cases (c : StatusCodes) (ack : Int) (io : GraspIO)
    (s : TickServer) :
    (GraspBottle.execute_tick c ack io s = none ∧ 1 ≤ io.blackboard_count1 ∧
        io.pose_reply.length = 1 ∧ (Bottle.get io.pose_reply 0).asList = none) ∨
      GraspBottle.execute_tick c ack io s =
        some (c.BT_FAILURE, set_status c.BT_FAILURE (set_status c.BT_RUNNING s)) ∨
      (GraspBottle.execute_tick c ack io s =
          some (c.BT_HALTED, set_status c.BT_HALTED (set_status c.BT_RUNNING s)) ∧
        (io.halted1 = true ∨ wait_for_grasp io.waits io.halted_ready = true)) ∨
      (GraspBottle.execute_tick c ack io s =
          some (c.BT_SUCCESS, set_status c.BT_SUCCESS (set_status c.BT_RUNNING s)) ∧
        1 ≤ io.blackboard_count1 ∧ 1 ≤ io.start_halt_count ∧ 1 ≤ io.grasp_count ∧
        1 ≤ io.blackboard_count2 ∧ io.halted1 = false ∧
        wait_for_grasp io.waits io.halted_ready = false ∧
        io.grasp_reply.length = 1 ∧ (Bottle.get io.grasp_reply 0).asVocab = ack ∧
        io.set_reply.length = 1 ∧ (Bottle.get io.set_reply 0).asInt = 1) := by
  generalize hres : GraspBottle.execute_tick c ack io s = res
  simp only [GraspBottle.execute_tick] at hres
  by_cases h1 : io.blackboard_count1 < 1
  · rw [if_pos h1] at hres
    exact Or.inr (Or.inl hres.symm)
  rw [if_neg h1] at hres
  by_cases h2 : io.pose_reply.length ≠ 1
  · rw [if_pos h2] at hres
    exact Or.inr (Or.inl hres.symm)
  rw [if_neg h2] at hres
  simp only [not_lt, ne_eq, not_not] at h1 h2
  cases hl : (Bottle.get io.pose_reply 0).asList with
  | none =>
      simp only [hl] at hres
      exact Or.inl ⟨hres.symm, h1, h2, rfl⟩
  | some n =>
      simp only [hl] at hres
      by_cases g1 : n < 3
      · rw [if_pos g1] at hres
        exact Or.inr (Or.inl hres.symm)
      rw [if_neg g1] at hres
      by_cases g2 : io.halted1 = true
      · rw [if_pos g2] at hres
        exact Or.inr (Or.inr (Or.inl ⟨hres.symm, Or.inl g2⟩))
      rw [if_neg g2] at hres
      by_cases g3 : io.start_halt_count < 1
      · rw [if_pos g3] at hres
        exact Or.inr (Or.inl hres.symm)
      rw [if_neg g3] at hres
      by_cases g4 : io.grasp_count < 1
      · rw [if_pos g4] at hres
        exact Or.inr (Or.inl hres.symm)
      rw [if_neg g4] at hres
      by_cases g5 : wait_for_grasp io.waits io.halted_ready = true
      · rw [if_pos g5] at hres
        exact Or.inr (Or.inr (Or.inl ⟨hres.symm, Or.inr g5⟩))
      rw [if_neg g5] at hres
      by_cases g6 : io.grasp_reply.length ≠ 1
      · rw [if_pos g6] at hres
        exact Or.inr (Or.inl hres.symm)
      rw [if_neg g6] at hres
      by_cases g7 : (Bottle.get io.grasp_reply 0).asVocab ≠ ack
      · rw [if_pos g7] at hres
        exact Or.inr (Or.inl hres.symm)
      rw [if_neg g7] at hres
      by_cases g8 : io.blackboard_count2 < 1
      · rw [if_pos g8] at hres
        exact Or.inr (Or.inl hres.symm)
      rw [if_neg g8] at hres
      by_cases g9 : io.set_reply.length ≠ 1
      · rw [if_pos g9] at hres
        exact Or.inr (Or.inl hres.symm)
      rw [if_neg g9] at hres
      by_cases g10 : (Bottle.get io.set_reply 0).asInt ≠ 1
      · rw [if_pos g10] at hres
        exact Or.inr (Or.inl hres.symm)
      rw [if_neg g10] at hres
      simp only [not_lt, Bool.not_eq_true, ne_eq, not_not] at g2 g3 g4 g5 g6 g7 g8 g9 g10
      exact Or.inr (Or.inr (Or.inr ⟨hres.symm, h1, g3, g4, g8, g2, g5, g6, g7, g9, g10⟩))

/-- How `GraspBottle::execute_tick` treats a missing connection: when one of
the ports has no output connection at the check made before it is used, a
call that returns does not return SUCCESS; it returns FAILURE or HALTED, and
FAILURE when no halt is observed. If it is the blackboard port at the first
check, the call returns FAILURE at once. If no halt is observed and the
element of the pose reply is a list, the call does return, with FAILURE. -/
theorem GraspBottle.execute_tick_without_connection (c : StatusCodes) (ack : Int) (io : GraspIO)
    (s : TickServer)
    (h : io.blackboard_count1 < 1 ∨ io.start_halt_count < 1 ∨ io.grasp_count < 1 ∨
      io.blackboard_count2 < 1) :
    (∀ r s1, GraspBottle.execute_tick c ack io s = some (r, s1) →
        r ≠ c.BT_SUCCESS ∧ (r = c.BT_FAILURE ∨ r = c.BT_HALTED) ∧
          (io.halted1 = false → wait_for_grasp io.waits io.halted_ready = false →
            r = c.BT_FAILURE)) ∧
      (io.blackboard_count1 < 1 →
        GraspBottle.execute_tick c ack io s =
          some (c.BT_FAILURE, set_status c.BT_FAILURE (set_status c.BT_RUNNING s))) ∧
      ((Bottle.get io.pose_reply 0).asList ≠ none → io.halted1 = false →
        wait_for_grasp io.waits io.halted_ready = false →
        GraspBottle.execute_tick c ack io s =
          some (c.BT_FAILURE, set_status c.BT_FAILURE (set_status c.BT_RUNNING s))) := by
  have hne := c.pairwise_ne
  have hFS : c.BT_FAILURE ≠ c.BT_SUCCESS := fun hh => hne.2.2.2.2.2.1 hh.symm
  have hHS : c.BT_HALTED ≠ c.BT_SUCCESS := fun hh => hne.2.2.2.2.2.2.2.1 hh.symm
  have hnoS : ¬ (1 ≤ io.blackboard_count1 ∧ 1 ≤ io.start_halt_count ∧ 1 ≤ io.grasp_count ∧
      1 ≤ io.blackboard_count2) := by
    rintro ⟨a1, a2, a3, a4⟩
    rcases h with h | h | h | h <;> omega
  refine ⟨?_, ?_, ?_⟩
  · intro r s1 hr
    rcases GraspBottle.execute_tick_cases c ack io s with
      ⟨hn, -⟩ | hF | ⟨hH, hh⟩ | ⟨-, a1, a2, a3, a4, -⟩
    · rw [hn] at hr; cases hr
    · rw [hF] at hr
      obtain ⟨rfl, -⟩ := Prod.mk.inj (Option.some.inj hr)
      exact ⟨hFS, Or.inl rfl, fun _ _ => rfl⟩
    · rw [hH] at hr
      obtain ⟨rfl, -⟩ := Prod.mk.inj (Option.some.inj hr)
      refine ⟨hHS, Or.inr rfl, fun k1 k2 => ?_⟩
      rcases hh with hh | hh
      · rw [k1] at hh; cases hh
      · rw [k2] at hh; cases hh
    · exact absurd ⟨a1, a2, a3, a4⟩ hnoS
  · intro h1
    simp only [GraspBottle.execute_tick, h1, if_true]
  · intro hl k1 k2
    rcases GraspBottle.execute_tick_cases c ack io s with
      ⟨-, -, -, hn⟩ | hF | ⟨-, hh⟩ | ⟨-, a1, a2, a3, a4, -⟩
    · exact absurd hn hl
    · exact hF
    · rcases hh with hh | hh
      · rw [k1] at hh; cases hh
      · rw [k2] at hh; cases hh
    · exact absurd ⟨a1, a2, a3, a4⟩ hnoS

/-- C12 at the failing input: every write of `ComputeInvPose::execute_tick`
to the blackboard fails. The results of the writes are kept in `ret` and only
decide whether the monitor is told; the call stores and returns SUCCESS, not
FAILURE, and it does so whatever the writes return. The sibling body
`GraspBottle::execute_tick` returns FAILURE when it finds its blackboard port
without a connection. -/
theorem C12_inv_pose_ignores_failed_writes :
    ComputeInvPose.execute_tick codes0
        { ret_InvPose := false, ret_InvPoseComputed := false, ret_InvPoseValid := false,
          ret_RobotAtInvPose := false } idleServer =
      (codes0.BT_SUCCESS, set_status codes0.BT_SUCCESS (set_status codes0.BT_RUNNING idleServer),
        []) ∧
      codes0.BT_SUCCESS ≠ codes0.BT_FAILURE ∧
      (∀ (c : StatusCodes) (io : InvPoseIO) (s : TickServer),
        (ComputeInvPose.execute_tick c io s).1 = c.BT_SUCCESS ∧
          get_status (ComputeInvPose.execute_tick c io s).2.1 = c.BT_SUCCESS) ∧
      GraspBottle.execute_tick codes0 ack0 { graspOk with blackboard_count1 := 0 } idleServer =
        some (codes0.BT_FAILURE,
          set_status codes0.BT_FAILURE (set_status codes0.BT_RUNNING idleServer)) := by
  refine ⟨rfl, ?_, fun c io s => ⟨rfl, rfl⟩, rfl⟩
  decide

/-- What `GraspBottle::execute_tick` guarantees when it returns: the value is
SUCCESS, FAILURE or HALTED, the status stored last is the value returned, and
SUCCESS is returned only if the reply of the grasp module has exactly one
element, whose `asVocab()` is `ack`, the reply to the final `set` has exactly
one element, whose `asInt()` is 1, and no halt check saw a halt. And it does
return unless the single element of the pose reply is not a list. -/
theorem GraspBottle.execute_tick_sound (c : StatusCodes) (ack : Int) (io : GraspIO)
    (s : TickServer) :
    (∀ r s1, GraspBottle.execute_tick c ack io s = some (r, s1) →
        (r = c.BT_SUCCESS ∨ r = c.BT_FAILURE ∨ r = c.BT_HALTED) ∧ get_status s1 = r ∧
          (r = c.BT_SUCCESS →
            io.grasp_reply.length = 1 ∧ (Bottle.get io.grasp_reply 0).asVocab = ack ∧
              io.set_reply.length = 1 ∧ (Bottle.get io.set_reply 0).asInt = 1 ∧
              io.halted1 = false ∧ (∀ halted ∈ io.waits, halted = false) ∧
              io.halted_ready = false)) ∧
      ((Bottle.get io.pose_reply 0).asList ≠ none →
        ∃ r s1, GraspBottle.execute_tick c ack io s = some (r, s1)) := by
  have hne := c.pairwise_ne
  have hFS : c.BT_FAILURE ≠ c.BT_SUCCESS := fun hh => hne.2.2.2.2.2.1 hh.symm
  have hHS : c.BT_HALTED ≠ c.BT_SUCCESS := fun hh => hne.2.2.2.2.2.2.2.1 hh.symm
  refine ⟨?_, ?_⟩
  · intro r s1 hr
    rcases GraspBottle.execute_tick_cases c ack io s with
      ⟨hn, -⟩ | hF | ⟨hH, -⟩ | ⟨hS, -, -, -, -, b1, b2, b3, b4, b5, b6⟩
    · rw [hn] at hr; cases hr
    · rw [hF] at hr
      obtain ⟨rfl, rfl⟩ := Prod.mk.inj (Option.some.inj hr)
      exact ⟨Or.inr (Or.inl rfl), rfl, fun hh => absurd hh hFS⟩
    · rw [hH] at hr
      obtain ⟨rfl, rfl⟩ := Prod.mk.inj (Option.some.inj hr)
      exact ⟨Or.inr (Or.inr rfl), rfl, fun hh => absurd hh hHS⟩
    · rw [hS] at hr
      obtain ⟨rfl, rfl⟩ := Prod.mk.inj (Option.some.inj hr)
      have hw := (wait_for_grasp_false io.waits io.halted_ready).mp b2
      exact ⟨Or.inl rfl, rfl, fun _ => ⟨b3, b4, b5, b6, b1, hw.1, hw.2⟩⟩
  · intro hl
    rcases GraspBottle.execute_tick_cases c ack io s with
      ⟨-, -, -, hn⟩ | hF | ⟨hH, -⟩ | ⟨hS, -⟩
    · exact absurd hn hl
    · exact ⟨_, _, hF⟩
    · exact ⟨_, _, hH⟩
    · exact ⟨_, _, hS⟩

/-- C15 at the failing input: the blackboard is connected and answers the
`get` with one element that is not a list. `asList()` gives a null pointer,
which `execute_tick` dereferences for `size()`: the call returns no value, and
the status stored last is RUNNING. With a list of three in its place the same
answers give SUCCESS. -/
theorem C15_pose_reply_not_a_list :
    (1 : Int) ≤ ({ graspOk with pose_reply := intReply 0 } : GraspIO).blackboard_count1 ∧
      ({ graspOk with pose_reply := intReply 0 } : GraspIO).pose_reply.length = 1 ∧
      (Bottle.get ({ graspOk with pose_reply := intReply 0 } : GraspIO).pose_reply 0).asList =
        none ∧
      GraspBottle.execute_tick codes0 ack0 { graspOk with pose_reply := intReply 0 } idleServer =
        none ∧
      GraspBottle.execute_tick codes0 ack0 graspOk idleServer =
        some (codes0.BT_SUCCESS,
          set_status codes0.BT_SUCCESS (set_status codes0.BT_RUNNING idleServer)) := by
  refine ⟨?_, rfl, rfl, rfl, rfl⟩
  decide

end TickServerModel
